import Mathlib

/-!
Verification of the configinator repository's value-resolution and
precedence-merge engine: the `.env` parser (package `env`) and the per-field
`Container` resolver (package `container`), together with the `Behold`
orchestration loop.  Strings are modelled as lists of characters; the Go
standard-library collaborators (`strconv`, `time.Parse`) are modelled
explicitly where the code uses them.
-/

namespace Configinator

/-- Strings are modelled as lists of characters. -/
abbrev Str := List Char

/-! ## Whitespace and basic string helpers -/

/-- Model of `unicode.IsSpace` restricted to the characters relevant here
(ASCII whitespace plus U+0085 and U+00A0), as used by `strings.TrimSpace`. -/
def isSpaceGo (c : Char) : Bool :=
  c == ' ' || c == '\t' || c == '\n' || c == '\x0b' || c == '\x0c' ||
  c == '\r' || c.val == 0x85 || c.val == 0xA0

/-- Model of the left half of `strings.TrimSpace`. -/
def trimLeftW (l : Str) : Str := l.dropWhile isSpaceGo

/-- Model of the right half of `strings.TrimSpace`. -/
def trimRightW (l : Str) : Str := (l.reverse.dropWhile isSpaceGo).reverse

/-- Model of `strings.TrimSpace`. -/
def trimSpaceGo (l : Str) : Str := trimRightW (trimLeftW l)

/-- Model of `strings.Trim(value, " ")`: trim space characters (only `' '`,
not tabs) from both ends. -/
def trimBlanks (l : Str) : Str :=
  ((l.dropWhile (· == ' ')).reverse.dropWhile (· == ' ')).reverse

/-- Model of `strings.Count(s, c)` for a one-character substring. -/
def countChar (c : Char) (l : Str) : Nat := (l.filter (· == c)).length

/-- Model of `strings.Split(s, sep)` for a one-character separator. -/
def splitOnChar (sep : Char) : Str → List Str
  | [] => [[]]
  | c :: rest =>
      match splitOnChar sep rest with
      | [] => if c == sep then [[], []] else [[c]]
      | s :: ss => if c == sep then [] :: s :: ss else (c :: s) :: ss

/-- Model of `strings.Join(parts, sep)` for a one-character separator. -/
def joinChar (sep : Char) : List Str → Str
  | [] => []
  | [s] => s
  | s :: ss => s ++ sep :: joinChar sep ss

/-- Model of `strings.SplitN(s, sep, 2)` for a one-character separator:
the part before the first separator, and (when the separator occurs) the
remainder after it. -/
def splitN2 (sep : Char) : Str → Str × Option Str
  | [] => ([], none)
  | c :: rest =>
      if c == sep then ([], some rest)
      else
        let (a, b) := splitN2 sep rest
        (c :: a, b)

/-! ## Env-file parser (package `env`) -/

/-- Model of `isIgnoredLine`: true when the whitespace-trimmed line is empty
or begins with `#`. -/
def isIgnoredLine (line : Str) : Bool :=
  let t := trimSpaceGo line
  t.length == 0 || t.head? == some '#'

/-- The comment-stripping loop inside `parseLine`: walk the `#`-split
segments tracking the `inQuotes` flag and the `keep` accumulator exactly as
the Go loop does. -/
def keepLoop : List Str → Bool → List Str → List Str
  | [], _, keep => keep
  | part :: rest, inQuotes, keep =>
      let cond := countChar '"' part == 1 || countChar '\'' part == 1
      let st :=
        if cond then
          if inQuotes then (false, keep ++ [part]) else (true, keep)
        else (inQuotes, keep)
      let keep2 := if st.2.length == 0 || st.1 then st.2 ++ [part] else st.2
      keepLoop rest st.1 keep2

/-- The comment-handling prefix of `parseLine`: when the line contains `#`,
split on `#`, run the keep loop, and rejoin with `#`. -/
def processHashLine (line : Str) : Str :=
  if line.contains '#' then joinChar '#' (keepLoop (splitOnChar '#' line) false [])
  else line

/-- The quoted-value test from the anchored regexes `\A'(.*)'\z` and
`\A"(.*)"\z`: first and last character is the quote, and the middle (matched
by `.*`, which excludes newline) contains no newline. -/
def quotedBy (q : Char) (v : Str) : Bool :=
  match v with
  | [] => false
  | c :: rest =>
      c == q && !rest.isEmpty && rest.getLast? == some q &&
      !(rest.dropLast.contains '\n')

/-- Model of the `escapeRegex.ReplaceAllStringFunc` pass: each non-overlapping
match of `\\.` (a backslash followed by any character except newline) is
replaced — `\n` with a newline, `\r` with a carriage return, anything else
kept literally. -/
def expandEscapes : Str → Str
  | '\\' :: c :: rest =>
      if c == '\n' then '\\' :: expandEscapes (c :: rest)
      else if c == 'n' then '\n' :: expandEscapes rest
      else if c == 'r' then '\r' :: expandEscapes rest
      else '\\' :: c :: expandEscapes rest
  | c :: rest => c :: expandEscapes rest
  | [] => []

/-- Model of the `unescapeCharsRegex.ReplaceAllString(value, "$1")` pass:
each non-overlapping match of `\\([^$])` is replaced by its captured
character; `\$` is left alone. -/
def unescapeChars : Str → Str
  | '\\' :: c :: rest =>
      if c == '$' then '\\' :: '$' :: unescapeChars rest
      else c :: unescapeChars rest
  | c :: rest => c :: unescapeChars rest
  | [] => []

/-- Model of `parseValue`: trim spaces, strip one pair of matching quotes,
and run the two escape passes when the value was double-quoted. -/
def parseValue (v0 : Str) : Str :=
  let v := trimBlanks v0
  if v.length > 1 then
    let sq := quotedBy '\'' v
    let dq := quotedBy '"' v
    let v1 := if sq || dq then (v.drop 1).dropLast else v
    if dq then unescapeChars (expandEscapes v1) else v1
  else v

/-- The string `export`, used for the key's literal prefix strip. -/
def exportChars : Str := ['e', 'x', 'p', 'o', 'r', 't']

/-- Model of the `strings.HasPrefix(key, "export")` /
`strings.TrimPrefix(key, "export")` pair in `parseLine`. -/
def dropExport (key : Str) : Str :=
  if exportChars.isPrefixOf key then key.drop 6 else key

/-- The parse errors of the env-file parser, without their message text. -/
inductive ParseErr
  | zeroLength
  | noSeparator
  deriving DecidableEq, Repr

/-- Model of `parseLine`: reject empty lines, strip trailing comments, split
on the first `=`, strip the `export` prefix and trim the key, and process the
value. -/
def parseLine (line : Str) : Except ParseErr (Str × Str) :=
  if line.length == 0 then .error .zeroLength
  else
    let line2 := processHashLine line
    match splitN2 '=' line2 with
    | (_, none) => .error .noSeparator
    | (k, some v) => .ok (trimSpaceGo (dropExport k), parseValue v)

/-- Insertion into the result map: a later assignment to an existing key
overwrites it, as with a Go map. -/
def upsert (k v : Str) : List (Str × Str) → List (Str × Str)
  | [] => [(k, v)]
  | (k', v') :: rest => if k' == k then (k, v) :: rest else (k', v') :: upsert k v rest

/-- The line loop of `parse`: skip ignored lines, parse the rest in order,
abort on the first error. -/
def parseLinesAux (acc : List (Str × Str)) :
    List Str → Except ParseErr (List (Str × Str))
  | [] => .ok acc
  | l :: rest =>
      if isIgnoredLine l then parseLinesAux acc rest
      else
        match parseLine l with
        | .error e => .error e
        | .ok (k, v) => parseLinesAux (upsert k v acc) rest

/-- Model of `parse`, taking the scanned lines of the input text. -/
def parseLines (ls : List Str) : Except ParseErr (List (Str × Str)) :=
  parseLinesAux [] ls

/-- Lookup in the env-file map, modelling `value, ok := c.envFile[name]`. -/
def lookupEF (m : List (Str × Str)) (k : Str) : Option Str :=
  match m with
  | [] => none
  | (k', v) :: rest => if k' == k then some v else lookupEF rest k

/-! ## Models of the Go standard-library collaborators

The container code calls `strconv.ParseBool`, `strconv.Atoi`,
`strconv.ParseFloat` and `time.Parse`; these are platform collaborators, not
repository code, and are modelled here with `Option`-valued parsers (`none`
for a non-nil Go error). -/

/-- Model of `strconv.ParseBool`: exactly the twelve accepted literals. -/
def parseBoolGo (v : Str) : Option Bool :=
  if v == "1".data || v == "t".data || v == "T".data || v == "true".data ||
     v == "TRUE".data || v == "True".data then some true
  else if v == "0".data || v == "f".data || v == "F".data || v == "false".data ||
     v == "FALSE".data || v == "False".data then some false
  else none

/-- The value of a string of decimal digits, or `none` when the string is
empty or holds a non-digit. -/
def digitsVal (v : Str) : Option Nat :=
  if v.isEmpty || !(v.all fun c => '0' ≤ c && c ≤ '9') then none
  else some (v.foldl (fun acc c => acc * 10 + (c.toNat - 48)) 0)

/-- Model of `strconv.Atoi` (i.e. `ParseInt(s, 10, 0)` with a 64-bit `int`):
an optional sign, then decimal digits, with the 64-bit range check (an
out-of-range value is an error, which the container treats as a failed
parse). -/
def atoiGo (v : Str) : Option Int :=
  match v with
  | '+' :: rest =>
      match digitsVal rest with
      | some n => if (n : Int) ≤ 2 ^ 63 - 1 then some (n : Int) else none
      | none => none
  | '-' :: rest =>
      match digitsVal rest with
      | some n => if (n : Int) ≤ 2 ^ 63 then some (-(n : Int)) else none
      | none => none
  | _ =>
      match digitsVal v with
      | some n => if (n : Int) ≤ 2 ^ 63 - 1 then some (n : Int) else none
      | none => none

/-- Mantissa of a decimal float literal: digits with an optional decimal
point, at least one digit in total.  Returns its exact rational value. -/
def floatMantissa (v : Str) : Option ℚ :=
  match splitN2 '.' v with
  | (w, none) => (digitsVal w).map (fun n => (n : ℚ))
  | (w, some f) =>
      match w, f with
      | [], [] => none
      | [], _ =>
          (digitsVal f).map (fun n => (n : ℚ) / (10 : ℚ) ^ f.length)
      | _, [] => (digitsVal w).map (fun n => (n : ℚ))
      | _, _ =>
          match digitsVal w, digitsVal f with
          | some n, some m => some ((n : ℚ) + (m : ℚ) / (10 : ℚ) ^ f.length)
          | _, _ => none

/-- Model of `strconv.ParseFloat(s, 64)` restricted to finite decimal
literals (optional sign, decimal mantissa, optional decimal exponent), with
exact rational semantics; binary rounding, hexadecimal literals and the
inf/nan spellings are abstracted away. -/
def parseFloatGo (v : Str) : Option ℚ :=
  let signed : Str → Option ℚ := fun w =>
    match w with
    | '+' :: rest => floatMantissa rest
    | '-' :: rest => (floatMantissa rest).map (fun q => -q)
    | _ => floatMantissa w
  let expPart : Str → Option Int := fun e =>
    match e with
    | '+' :: rest => (digitsVal rest).map (fun n => (n : Int))
    | '-' :: rest => (digitsVal rest).map (fun n => -(n : Int))
    | _ => (digitsVal e).map (fun n => (n : Int))
  match splitN2 'e' v with
  | (m, some e) =>
      match signed m, expPart e with
      | some q, some x => some (q * (10 : ℚ) ^ x)
      | _, _ => none
  | (_, none) =>
      match splitN2 'E' v with
      | (m, some e) =>
          match signed m, expPart e with
          | some q, some x => some (q * (10 : ℚ) ^ x)
          | _, _ => none
      | (_, none) => signed v

/-! ### Time model

`time.Time` values are modelled by their instant: seconds since
0001-01-01 00:00:00 UTC in the proleptic Gregorian calendar, so that the Go
zero `time.Time` is `0`. -/

/-- Instants in seconds since 0001-01-01T00:00:00Z. -/
abbrev Time := Int

/-- The Go zero `time.Time` (January 1, year 1, 00:00:00 UTC). -/
def zeroTime : Time := 0

/-- Leap-year test of the Gregorian calendar, as in Go's `time` package. -/
def isLeapYear (y : Int) : Bool := y % 4 == 0 && (y % 100 != 0 || y % 400 == 0)

/-- Days in a month of a given year. -/
def daysInMonth (y : Int) (m : Nat) : Nat :=
  if m == 2 then (if isLeapYear y then 29 else 28)
  else if m == 4 || m == 6 || m == 9 || m == 11 then 30
  else 31

/-- Days from 0001-01-01 to the given civil date (days-from-civil
algorithm over the proleptic Gregorian calendar). -/
def daysFromCivil (y : Int) (m d : Nat) : Int :=
  let y' : Int := if m ≤ 2 then y - 1 else y
  let era : Int := Int.fdiv y' 400
  let yoe : Int := y' - era * 400
  let mp : Int := if m > 2 then (m : Int) - 3 else (m : Int) + 9
  let doy : Int := (153 * mp + 2) / 5 + (d : Int) - 1
  let doe : Int := yoe * 365 + yoe / 4 - yoe / 100 + doy
  era * 146097 + doe - 306

/-- The instant of a wall-clock date-time with a zone offset in minutes. -/
def mkInstant (y : Int) (mo d h mi s : Nat) (offMin : Int) : Time :=
  daysFromCivil y mo d * 86400 + (h : Int) * 3600 + (mi : Int) * 60 + (s : Int)
    - offMin * 60

/-- Field validation performed by `time.Parse` after reading the fields. -/
def validFields (y : Int) (mo d h mi s : Nat) : Bool :=
  1 ≤ mo && mo ≤ 12 && 1 ≤ d && d ≤ daysInMonth y mo && h < 24 && mi < 60 && s < 60

/-- Read exactly `n` decimal digits from the front of a string,
most-significant first. -/
def readFixed (n : Nat) (s : Str) : Option (Nat × Str) :=
  let rec go : Nat → Nat → Str → Option (Nat × Str)
    | 0, acc, r => some (acc, r)
    | k + 1, acc, r =>
        match r with
        | [] => none
        | c :: rest =>
            if '0' ≤ c && c ≤ '9' then go k (acc * 10 + (c.toNat - 48)) rest
            else none
  go n 0 s

/-- Expect a literal character at the front of a string. -/
def expectChar (c : Char) (s : Str) : Option Str :=
  match s with
  | c' :: rest => if c' == c then some rest else none
  | [] => none

/-- Read the `2006-01-02` date portion. -/
def readDate (s : Str) : Option (Nat × Nat × Nat × Str) := do
  let (y, s) ← readFixed 4 s
  let s ← expectChar '-' s
  let (mo, s) ← readFixed 2 s
  let s ← expectChar '-' s
  let (d, s) ← readFixed 2 s
  pure (y, mo, d, s)

/-- Read the `15:04:05` clock portion. -/
def readClock (s : Str) : Option (Nat × Nat × Nat × Str) := do
  let (h, s) ← readFixed 2 s
  let s ← expectChar ':' s
  let (mi, s) ← readFixed 2 s
  let s ← expectChar ':' s
  let (sec, s) ← readFixed 2 s
  pure (h, mi, sec, s)

/-- Build the instant when the parsed fields are valid and the whole input
was consumed. -/
def finishLayout (y mo d h mi s : Nat) (offMin : Int) (rest : Str) : Option Time :=
  if rest.isEmpty && validFields (y : Int) mo d h mi s then
    some (mkInstant (y : Int) mo d h mi s offMin)
  else none

/-- Layout `2006-01-02`. -/
def layoutDate (v : Str) : Option Time := do
  let (y, mo, d, r) ← readDate v
  finishLayout y mo d 0 0 0 0 r

/-- Layout `2006-01-02 15:04:05`. -/
def layoutDateSpace (v : Str) : Option Time := do
  let (y, mo, d, r) ← readDate v
  let r ← expectChar ' ' r
  let (h, mi, s, r) ← readClock r
  finishLayout y mo d h mi s 0 r

/-- Layout `2006-01-02T15:04:05`. -/
def layoutDateT (v : Str) : Option Time := do
  let (y, mo, d, r) ← readDate v
  let r ← expectChar 'T' r
  let (h, mi, s, r) ← readClock r
  finishLayout y mo d h mi s 0 r

/-- Layout `2006-01-02T15:04:05Z` (the lone `Z` is a literal in a Go
layout). -/
def layoutDateTZ (v : Str) : Option Time := do
  let (y, mo, d, r) ← readDate v
  let r ← expectChar 'T' r
  let (h, mi, s, r) ← readClock r
  let r ← expectChar 'Z' r
  finishLayout y mo d h mi s 0 r

/-- Layout `2006-01-02T15:04:05 MST`: a three-letter upper-case zone
abbreviation; `time.Parse` gives an unknown abbreviation offset zero. -/
def layoutDateTAbbrev (v : Str) : Option Time := do
  let (y, mo, d, r) ← readDate v
  let r ← expectChar 'T' r
  let (h, mi, s, r) ← readClock r
  let r ← expectChar ' ' r
  match r with
  | a :: b :: c :: r' =>
      if ('A' ≤ a && a ≤ 'Z') && ('A' ≤ b && b ≤ 'Z') && ('A' ≤ c && c ≤ 'Z') then
        finishLayout y mo d h mi s 0 r'
      else none
  | _ => none

/-- Layout `2006-01-02T15:04:05-0700`: a signed four-digit numeric zone
offset. -/
def layoutDateTNum (v : Str) : Option Time := do
  let (y, mo, d, r) ← readDate v
  let r ← expectChar 'T' r
  let (h, mi, s, r) ← readClock r
  match r with
  | sg :: r' =>
      if sg == '+' || sg == '-' then do
        let (oh, r') ← readFixed 2 r'
        let (om, r') ← readFixed 2 r'
        let off : Int := (if sg == '-' then -1 else 1) * ((oh : Int) * 60 + (om : Int))
        finishLayout y mo d h mi s off r'
      else none
  | [] => none

/-- Try the six layouts of `timeFormats` in their declared order. -/
def parseTimeGo (v : Str) : Option Time :=
  (layoutDate v).orElse fun _ =>
  (layoutDateSpace v).orElse fun _ =>
  (layoutDateT v).orElse fun _ =>
  (layoutDateTZ v).orElse fun _ =>
  (layoutDateTAbbrev v).orElse fun _ =>
  layoutDateTNum v

/-- Model of the container's `parseTime`: the first matching layout wins, no
match yields the zero time. -/
def parseTimeVal (v : Str) : Time := (parseTimeGo v).getD zeroTime

/-- Model of the container's `isTime`: some layout matches. -/
def isTimeGo (v : Str) : Bool := (parseTimeGo v).isSome

/-! ## The field resolver (package `container`) -/

/-- The `Container` struct: the per-field metadata recorded by `New`, the
env-file mapping, and the flag registry's current values (a `none` pointer
models a flag that was never registered; after registration and before
`flag.Parse` updates it, a pointer holds the registered default). -/
structure Container where
  fieldType : Str
  flagName : Str
  envName : Str
  defaultValue : Str
  description : Str
  envFile : List (Str × Str)
  boolValue : Option Bool := none
  intValue : Option Int := none
  floatValue : Option ℚ := none
  stringValue : Option Str := none
  timeValue : Option Str := none

namespace Container

/-- `IsBool`. -/
def IsBool (c : Container) : Bool := c.fieldType == "bool".data

/-- `IsFloat`. -/
def IsFloat (c : Container) : Bool := c.fieldType == "float64".data

/-- `IsInt`. -/
def IsInt (c : Container) : Bool := c.fieldType == "int".data

/-- `IsString`. -/
def IsString (c : Container) : Bool := c.fieldType == "string".data

/-- `IsTime`. -/
def IsTime (c : Container) : Bool := c.fieldType == "time.time".data

/-- `defaultValueToBool`: parse the default tag, falling back to `false`. -/
def DefaultValueToBool (c : Container) : Bool := (parseBoolGo c.defaultValue).getD false

/-- `defaultValueToFloat`: parse the default tag, falling back to `0.0`. -/
def DefaultValueToFloat (c : Container) : ℚ := (parseFloatGo c.defaultValue).getD 0

/-- `defaultValueToInt`: parse the default tag, falling back to `0`. -/
def DefaultValueToInt (c : Container) : Int := (atoiGo c.defaultValue).getD 0

/-- `defaultValueToString`: the raw default tag. -/
def DefaultValueToString (c : Container) : Str := c.defaultValue

/-- `defaultValueToTime`: the zero time when no layout matches, otherwise
the parsed default. -/
def DefaultValueToTime (c : Container) : Time :=
  if !isTimeGo c.defaultValue then zeroTime else parseTimeVal c.defaultValue

/-- `EnvBool`, reading the OS environment through `g` (`os.Getenv` returns
the empty string for an absent variable). -/
def EnvBool (g : Str → Str) (c : Container) : Bool × Bool :=
  let value := g c.envName
  if value != [] then
    match parseBoolGo value with
    | some r => (r, true)
    | none => (false, false)
  else (false, false)

/-- `EnvFloat`. -/
def EnvFloat (g : Str → Str) (c : Container) : ℚ × Bool :=
  let value := g c.envName
  if value != [] then
    match parseFloatGo value with
    | some r => (r, true)
    | none => (0, false)
  else (0, false)

/-- `EnvInt`. -/
def EnvInt (g : Str → Str) (c : Container) : Int × Bool :=
  let value := g c.envName
  if value != [] then
    match atoiGo value with
    | some r => (r, true)
    | none => (0, false)
  else (0, false)

/-- `EnvString`: found whenever the variable's value is non-empty. -/
def EnvString (g : Str → Str) (c : Container) : Str × Bool :=
  let value := g c.envName
  if value != [] then (value, true) else (value, false)

/-- `EnvTime`: any non-empty value is reported found, carrying
`parseTime`'s result (the zero time when no layout matches). -/
def EnvTime (g : Str → Str) (c : Container) : Time × Bool :=
  let value := g c.envName
  if value != [] then (parseTimeVal value, true) else (zeroTime, false)

/-- `EnvFileBool`. -/
def EnvFileBool (c : Container) : Bool × Bool :=
  match lookupEF c.envFile c.envName with
  | some value =>
      match parseBoolGo value with
      | some r => (r, true)
      | none => (false, false)
  | none => (false, false)

/-- `EnvFileFloat`. -/
def EnvFileFloat (c : Container) : ℚ × Bool :=
  match lookupEF c.envFile c.envName with
  | some value =>
      match parseFloatGo value with
      | some r => (r, true)
      | none => (0, false)
  | none => (0, false)

/-- `EnvFileInt`. -/
def EnvFileInt (c : Container) : Int × Bool :=
  match lookupEF c.envFile c.envName with
  | some value =>
      match atoiGo value with
      | some r => (r, true)
      | none => (0, false)
  | none => (0, false)

/-- `EnvFileString`: found whenever the key is present, even with an empty
value. -/
def EnvFileString (c : Container) : Str × Bool :=
  match lookupEF c.envFile c.envName with
  | some value => (value, true)
  | none => ([], false)

/-- `EnvFileTime`: any present key is reported found, carrying `parseTime`'s
result. -/
def EnvFileTime (c : Container) : Time × Bool :=
  match lookupEF c.envFile c.envName with
  | some value => (parseTimeVal value, true)
  | none => (zeroTime, false)

/-- `FlagBool`: found when the registered flag's current value differs from
the parsed default. -/
def FlagBool (c : Container) : Bool × Bool :=
  match c.boolValue with
  | some v => if v != c.DefaultValueToBool then (v, true) else (false, false)
  | none => (false, false)

/-- `FlagFloat`. -/
def FlagFloat (c : Container) : ℚ × Bool :=
  match c.floatValue with
  | some v => if v != c.DefaultValueToFloat then (v, true) else (0, false)
  | none => (0, false)

/-- `FlagInt`. -/
def FlagInt (c : Container) : Int × Bool :=
  match c.intValue with
  | some v => if v != c.DefaultValueToInt then (v, true) else (0, false)
  | none => (0, false)

/-- `FlagString`. -/
def FlagString (c : Container) : Str × Bool :=
  match c.stringValue with
  | some v => if v != c.DefaultValueToString then (v, true) else ([], false)
  | none => ([], false)

/-- `FlagTime`: the comparison is between the flag's raw string and the raw
default string, and the returned value is the parsed flag string. -/
def FlagTime (c : Container) : Time × Bool :=
  match c.timeValue with
  | some v => if v != c.defaultValue then (parseTimeVal v, true) else (zeroTime, false)
  | none => (zeroTime, false)

end Container

/-- The typed value held by a configuration field. -/
inductive FieldVal
  | b (x : Bool)
  | i (x : Int)
  | f (x : ℚ)
  | s (x : Str)
  | t (x : Time)
  deriving DecidableEq, Repr

/-- `SetDefaultValueOnConfig`: the sequence of `Is*` checks, each writing the
coerced default into the field; a field of an unsupported type is left
untouched. -/
def SetDefaultValueOnConfig (c : Container) (cur : Option FieldVal) : Option FieldVal :=
  let cur := if c.IsBool then some (.b c.DefaultValueToBool) else cur
  let cur := if c.IsFloat then some (.f c.DefaultValueToFloat) else cur
  let cur := if c.IsInt then some (.i c.DefaultValueToInt) else cur
  let cur := if c.IsString then some (.s c.DefaultValueToString) else cur
  if c.IsTime then some (.t c.DefaultValueToTime) else cur

/-- One iteration of `Behold`'s value-application loop for one field: the
bool, float, int and string branches each apply environment, env-file and
flag values in that order; there is no branch for time fields. -/
def beholdApply (g : Str → Str) (c : Container) (cur : Option FieldVal) : Option FieldVal :=
  let cur :=
    if c.IsBool then
      let cur := if (c.EnvBool g).2 then some (.b (c.EnvBool g).1) else cur
      let cur := if c.EnvFileBool.2 then some (.b c.EnvFileBool.1) else cur
      if c.FlagBool.2 then some (.b c.FlagBool.1) else cur
    else cur
  let cur :=
    if c.IsFloat then
      let cur := if (c.EnvFloat g).2 then some (.f (c.EnvFloat g).1) else cur
      let cur := if c.EnvFileFloat.2 then some (.f c.EnvFileFloat.1) else cur
      if c.FlagFloat.2 then some (.f c.FlagFloat.1) else cur
    else cur
  let cur :=
    if c.IsInt then
      let cur := if (c.EnvInt g).2 then some (.i (c.EnvInt g).1) else cur
      let cur := if c.EnvFileInt.2 then some (.i c.EnvFileInt.1) else cur
      if c.FlagInt.2 then some (.i c.FlagInt.1) else cur
    else cur
  if c.IsString then
    let cur := if (c.EnvString g).2 then some (.s (c.EnvString g).1) else cur
    let cur := if c.EnvFileString.2 then some (.s c.EnvFileString.1) else cur
    if c.FlagString.2 then some (.s c.FlagString.1) else cur
  else cur

/-- The full per-field resolution of `Behold`: the default written by `New`
through `SetDefaultValueOnConfig`, then the value-application loop. -/
def resolveField (g : Str → Str) (c : Container) : Option FieldVal :=
  beholdApply g c (SetDefaultValueOnConfig c none)

/-! ### Construction (`container.New`) -/

/-- The reflective facts `New` reads off one struct field: whether its
storage is settable, its lower-cased type name, and its four tags
(`reflect.StructTag.Get` yields the empty string for an absent tag, so the
optional tags are carried as `Option` with `Get = getD []`). -/
structure FieldMeta where
  canSet : Bool
  fieldType : Str
  flagTag : Option Str
  envTag : Option Str
  defaultTag : Option Str
  descTag : Option Str

/-- The construction errors of `container.New`. -/
inductive NewErr
  | errCantSet
  | errNoFlagName
  deriving DecidableEq, Repr

/-- The flag registration performed by `addFlag`: for the matching type the
registry pointer is created holding the type-coerced default (a time flag is
registered as a string flag holding the raw default). -/
def addFlag (c : Container) : Container :=
  let c := if c.IsBool then { c with boolValue := some c.DefaultValueToBool } else c
  let c := if c.IsFloat then { c with floatValue := some c.DefaultValueToFloat } else c
  let c := if c.IsInt then { c with intValue := some c.DefaultValueToInt } else c
  let c := if c.IsString then { c with stringValue := some c.DefaultValueToString } else c
  if c.IsTime then { c with timeValue := some c.DefaultValueToString } else c

/-- Model of `container.New`: reject unsettable storage, then a missing
`flag` tag; on success build the container, register the flag, and write the
coerced default into the field (returned alongside the container). -/
def New (fm : FieldMeta) (envFile : List (Str × Str)) :
    Except NewErr (Container × Option FieldVal) :=
  if !fm.canSet then .error .errCantSet
  else
    match fm.flagTag with
    | none => .error .errNoFlagName
    | some fl =>
        let c : Container :=
          { fieldType := fm.fieldType
            flagName := fl
            envName := fm.envTag.getD []
            defaultValue := fm.defaultTag.getD []
            description := fm.descTag.getD []
            envFile := envFile }
        let c := addFlag c
        .ok (c, SetDefaultValueOnConfig c none)

instance {ε α : Type _} [DecidableEq ε] [DecidableEq α] : DecidableEq (Except ε α) :=
  fun x y =>
    match x, y with
    | .ok a, .ok b =>
        if h : a = b then .isTrue (by rw [h]) else .isFalse (by simp [h])
    | .error a, .error b =>
        if h : a = b then .isTrue (by rw [h]) else .isFalse (by simp [h])
    | .ok _, .error _ => .isFalse (by simp)
    | .error _, .ok _ => .isFalse (by simp)

/-! ## Concrete scenario data used by the claim theorems -/

/-- An int-typed field mirroring the spec's port example: default `8080`,
environment name `HOST_PORT`, flag current value `fv`, env-file `ef`. -/
def portCont (fv : Option Int) (ef : List (Str × Str)) : Container :=
  { fieldType := "int".data, flagName := "port".data, envName := "HOST_PORT".data,
    defaultValue := "8080".data, description := [], envFile := ef, intValue := fv }

/-- An OS environment holding `HOST_PORT=9090` and nothing else. -/
def envPort : Str → Str :=
  fun k => if k == "HOST_PORT".data then "9090".data else []

/-- The empty OS environment. -/
def envNone : Str → Str := fun _ => []

/-- A timestamp-typed field with default `2006-01-02`, environment name
`TS`, and its flag unset (the registered string flag still holds the raw
default). -/
def tsCont : Container :=
  { fieldType := "time.time".data, flagName := "ts".data, envName := "TS".data,
    defaultValue := "2006-01-02".data, description := [], envFile := [],
    timeValue := some "2006-01-02".data }

/-- An OS environment holding `TS=2006-01-02T15:04:05Z`. -/
def envTS : Str → Str :=
  fun k => if k == "TS".data then "2006-01-02T15:04:05Z".data else []

/-- An OS environment holding `TS=garbage`. -/
def envTSGarbage : Str → Str :=
  fun k => if k == "TS".data then "garbage".data else []

/-- A timestamp-typed field whose flag was set to `2006-01-02T00:00:00`, a
different spelling of the same instant as its default `2006-01-02`. -/
def tsContFlagMidnight : Container :=
  { fieldType := "time.time".data, flagName := "ts".data, envName := [],
    defaultValue := "2006-01-02".data, description := [], envFile := [],
    timeValue := some "2006-01-02T00:00:00".data }

/-- A string-typed field whose env-file binds its variable `K` to the empty
string. -/
def strContEmptyFile : Container :=
  { fieldType := "string".data, flagName := "k".data, envName := "K".data,
    defaultValue := [], description := [], envFile := [("K".data, [])] }

/-! ## Claim theorems -/

/-- C6: parsing `KEY=value # comment` strips the trailing comment, while in
`KEY="a#b"` the `#` inside the double-quoted value is not treated as a
comment start. -/
theorem claim6_comment_handling :
    parseLine "KEY=value # comment".data = .ok ("KEY".data, "value".data) ∧
    parseLine "KEY=\"a#b\"".data = .ok ("KEY".data, "a#b".data) := by
  decide

/-- C9 counterexample: the claim quantifies over every key `K`, but for
`K = exportFOO` the line `export exportFOO=1` parses to the key `exportFOO`
while the line `exportFOO=1` has its literal `export` prefix stripped and
parses to the key `FOO` — different entries. -/
theorem claim9_counterexample :
    parseLine "export exportFOO=1".data = .ok ("exportFOO".data, "1".data) ∧
    parseLine "exportFOO=1".data = .ok ("FOO".data, "1".data) ∧
    ("exportFOO".data : Str) ≠ "FOO".data := by
  refine ⟨by decide, by decide, by decide⟩

/-- C10 counterexample: the parser succeeds on the single line `=value` and
the resulting mapping contains the empty key. -/
theorem claim10_counterexample :
    parseLines ["=value".data] = .ok [(([] : Str), "value".data)] ∧
    (([] : Str)).length = 0 := by
  decide

/-- C3, the code's actual behavior at the claim's inputs: with default
`2006-01-02` and no overrides the field resolves to midnight UTC of that
date (first half of the claim), but with the environment variable set to
`2006-01-02T15:04:05Z` the resolution pass still leaves the field at the
default midnight — `Behold`'s loop has no time branch — even though the
container's `EnvTime` accessor reports that exact instant as found. -/
theorem claim3_code_behavior :
    resolveField envNone tsCont = some (.t (mkInstant 2006 1 2 0 0 0 0)) ∧
    resolveField envTS tsCont = some (.t (mkInstant 2006 1 2 0 0 0 0)) ∧
    Container.EnvTime envTS tsCont = (mkInstant 2006 1 2 15 4 5 0, true) ∧
    mkInstant 2006 1 2 0 0 0 0 ≠ mkInstant 2006 1 2 15 4 5 0 := by
  refine ⟨by decide, by decide, by decide, by decide⟩

/-- C2 counterexample: for a timestamp field, a present, non-empty
environment value that matches no layout is reported *found* with the
zero-time sentinel, not not-found as the claim states for every type. -/
theorem claim2_counterexample :
    isTimeGo "garbage".data = false ∧
    Container.EnvTime envTSGarbage tsCont = (zeroTime, true) := by
  refine ⟨by decide, by decide⟩

/-- C4 counterexample: for a timestamp field the flag accessor compares raw
strings, so a flag holding `2006-01-02T00:00:00` — whose type-appropriate
parse equals the parse of the default `2006-01-02` — is still reported
found, contradicting the claimed if-and-only-if for every field type. -/
theorem claim4_counterexample :
    parseTimeVal "2006-01-02T00:00:00".data = parseTimeVal "2006-01-02".data ∧
    Container.FlagTime tsContFlagMidnight = (parseTimeVal "2006-01-02".data, true) := by
  refine ⟨by decide, by decide⟩

/-- C5 counterexample: with the variable bound to the empty string, the
env-file accessor for a string field reports found while the environment
accessor reports not-found, so the two accessors do not return the same
(value, found) pair for every value. -/
theorem claim5_counterexample :
    Container.EnvFileString strContEmptyFile = ([], true) ∧
    Container.EnvString envNone strContEmptyFile = ([], false) := by
  refine ⟨by decide, by decide⟩

/-- C2 amended: for bool, int and float64 fields, a present, non-empty
environment or env-file value that fails to parse is reported not-found with
the type's zero value and no error; string values cannot fail to parse; for
timestamp fields, however, any present, non-empty value is reported found,
carrying `parseTime`'s result (the zero-time sentinel when no layout
matches). -/
theorem claim2_amended (g : Str → Str) (c : Container) (v : Str) :
    (g c.envName = v → v ≠ [] → parseBoolGo v = none →
      c.EnvBool g = (false, false)) ∧
    (g c.envName = v → v ≠ [] → atoiGo v = none →
      c.EnvInt g = (0, false)) ∧
    (g c.envName = v → v ≠ [] → parseFloatGo v = none →
      c.EnvFloat g = (0, false)) ∧
    (lookupEF c.envFile c.envName = some v → parseBoolGo v = none →
      c.EnvFileBool = (false, false)) ∧
    (lookupEF c.envFile c.envName = some v → atoiGo v = none →
      c.EnvFileInt = (0, false)) ∧
    (lookupEF c.envFile c.envName = some v → parseFloatGo v = none →
      c.EnvFileFloat = (0, false)) ∧
    (g c.envName = v → v ≠ [] → c.EnvTime g = (parseTimeVal v, true)) ∧
    (lookupEF c.envFile c.envName = some v → c.EnvFileTime = (parseTimeVal v, true)) := by
  refine ⟨?_, ?_, ?_, ?_, ?_, ?_, ?_, ?_⟩
  · intro hg hv hp
    simp [Container.EnvBool, hg, hp, bne_iff_ne, hv]
  · intro hg hv hp
    simp [Container.EnvInt, hg, hp, bne_iff_ne, hv]
  · intro hg hv hp
    simp [Container.EnvFloat, hg, hp, bne_iff_ne, hv]
  · intro hL hp
    simp [Container.EnvFileBool, hL, hp]
  · intro hL hp
    simp [Container.EnvFileInt, hL, hp]
  · intro hL hp
    simp [Container.EnvFileFloat, hL, hp]
  · intro hg hv
    simp [Container.EnvTime, hg, bne_iff_ne, hv]
  · intro hL
    simp [Container.EnvFileTime, hL]

/-- C2 amended, witness: concrete unparsable values behave as stated for an
int field (environment and env-file) and a timestamp field. -/
theorem claim2_amended_witness :
    Container.EnvInt (fun k => if k == "HOST_PORT".data then "12a".data else [])
      (portCont none [("HOST_PORT".data, "12a".data)]) = (0, false) ∧
    Container.EnvFileInt (portCont none [("HOST_PORT".data, "12a".data)]) = (0, false) ∧
    Container.EnvTime envTSGarbage tsCont = (parseTimeVal "garbage".data, true) ∧
    Container.EnvBool (fun _ => "2".data) strContEmptyFile = (false, false) ∧
    Container.EnvFloat (fun _ => "x".data) strContEmptyFile = (0, false) ∧
    Container.EnvFileBool (portCont none [("HOST_PORT".data, "12a".data)]) = (false, false) ∧
    Container.EnvFileFloat (portCont none [("HOST_PORT".data, "12a".data)]) = (0, false) ∧
    Container.EnvFileTime (portCont none [("HOST_PORT".data, "12a".data)]) =
      (parseTimeVal "12a".data, true) := by
  refine ⟨?_, ?_, ?_, ?_, ?_, ?_, ?_, ?_⟩
  · exact (claim2_amended _ _ "12a".data).2.1 (by decide) (by decide) (by decide)
  · exact (claim2_amended envNone _ "12a".data).2.2.2.2.1 (by decide) (by decide)
  · exact (claim2_amended _ _ "garbage".data).2.2.2.2.2.2.1 (by decide) (by decide)
  · exact (claim2_amended _ _ "2".data).1 (by decide) (by decide) (by decide)
  · exact (claim2_amended _ _ "x".data).2.2.1 (by decide) (by decide) (by decide)
  · exact (claim2_amended envNone _ "12a".data).2.2.2.1 (by decide) (by decide)
  · exact (claim2_amended envNone _ "12a".data).2.2.2.2.2.1 (by decide) (by decide)
  · exact (claim2_amended envNone _ "12a".data).2.2.2.2.2.2.2 (by decide)

/-- C4 amended: for bool, int, float64 and string fields the flag accessor
reports found, returning the flag's value, exactly when the flag's current
parsed value differs from the type-appropriate parse of the declared
default; for a timestamp field the comparison is instead between the flag's
raw string and the raw default string (so a different spelling of the same
instant is reported found), the returned value being the parse of the flag
string; an unregistered flag is never found. -/
theorem claim4_amended (c : Container) :
    (∀ v, c.boolValue = some v →
      (v ≠ c.DefaultValueToBool → c.FlagBool = (v, true)) ∧
      (v = c.DefaultValueToBool → c.FlagBool = (false, false))) ∧
    (c.boolValue = none → c.FlagBool = (false, false)) ∧
    (∀ v, c.intValue = some v →
      (v ≠ c.DefaultValueToInt → c.FlagInt = (v, true)) ∧
      (v = c.DefaultValueToInt → c.FlagInt = (0, false))) ∧
    (c.intValue = none → c.FlagInt = (0, false)) ∧
    (∀ v, c.floatValue = some v →
      (v ≠ c.DefaultValueToFloat → c.FlagFloat = (v, true)) ∧
      (v = c.DefaultValueToFloat → c.FlagFloat = (0, false))) ∧
    (c.floatValue = none → c.FlagFloat = (0, false)) ∧
    (∀ v, c.stringValue = some v →
      (v ≠ c.DefaultValueToString → c.FlagString = (v, true)) ∧
      (v = c.DefaultValueToString → c.FlagString = ([], false))) ∧
    (c.stringValue = none → c.FlagString = ([], false)) ∧
    (∀ s, c.timeValue = some s →
      (s ≠ c.defaultValue → c.FlagTime = (parseTimeVal s, true)) ∧
      (s = c.defaultValue → c.FlagTime = (zeroTime, false))) ∧
    (c.timeValue = none → c.FlagTime = (zeroTime, false)) := by
  refine ⟨?_, ?_, ?_, ?_, ?_, ?_, ?_, ?_, ?_, ?_⟩
  · intro v hv
    constructor
    · intro hne; simp [Container.FlagBool, hv, bne_iff_ne, hne]
    · intro he; simp [Container.FlagBool, hv, he]
  · intro hv; simp [Container.FlagBool, hv]
  · intro v hv
    constructor
    · intro hne; simp [Container.FlagInt, hv, bne_iff_ne, hne]
    · intro he; simp [Container.FlagInt, hv, he]
  · intro hv; simp [Container.FlagInt, hv]
  · intro v hv
    constructor
    · intro hne; simp [Container.FlagFloat, hv, bne_iff_ne, hne]
    · intro he; simp [Container.FlagFloat, hv, he]
  · intro hv; simp [Container.FlagFloat, hv]
  · intro v hv
    constructor
    · intro hne; simp [Container.FlagString, hv, bne_iff_ne, hne]
    · intro he; simp [Container.FlagString, hv, he]
  · intro hv; simp [Container.FlagString, hv]
  · intro s hs
    constructor
    · intro hne; simp [Container.FlagTime, hs, bne_iff_ne, hne]
    · intro he; simp [Container.FlagTime, hs, he]
  · intro hs; simp [Container.FlagTime, hs]

/-- C4 amended, witness: the port flag set to `6060` against default `8080`
is found; set to exactly `8080` it is not found; a timestamp flag holding a
string different from the raw default is found with the parsed value. -/
theorem claim4_amended_witness :
    Container.FlagInt (portCont (some 6060) []) = (6060, true) ∧
    Container.FlagInt (portCont (some 8080) []) = (0, false) ∧
    Container.FlagTime tsContFlagMidnight =
      (parseTimeVal "2006-01-02T00:00:00".data, true) := by
  refine ⟨?_, ?_, ?_⟩
  · exact (((claim4_amended (portCont (some 6060) [])).2.2.1) 6060 rfl).1 (by decide)
  · exact (((claim4_amended (portCont (some 8080) [])).2.2.1) 8080 rfl).2 (by decide)
  · exact (((claim4_amended tsContFlagMidnight).2.2.2.2.2.2.2.2.1)
      "2006-01-02T00:00:00".data rfl).1 (by decide)

/-- C5 amended: for every non-empty value `v`, binding the declared variable
to `v` in the env-file mapping and setting the OS environment variable to
`v` make each pair of accessors (bool, int, float, string, time) return the
same (value, found) pair; for the empty string the bool, int and float
accessor pairs still agree (both not-found), but string and time do not (the
env-file side reports found, as the counterexample shows). -/
theorem claim5_amended (g : Str → Str) (c : Container) (v : Str)
    (hg : g c.envName = v) (hL : lookupEF c.envFile c.envName = some v) :
    (v ≠ [] →
      c.EnvBool g = c.EnvFileBool ∧
      c.EnvInt g = c.EnvFileInt ∧
      c.EnvFloat g = c.EnvFileFloat ∧
      c.EnvString g = c.EnvFileString ∧
      c.EnvTime g = c.EnvFileTime) ∧
    (v = [] →
      c.EnvBool g = c.EnvFileBool ∧
      c.EnvInt g = c.EnvFileInt ∧
      c.EnvFloat g = c.EnvFileFloat) := by
  constructor
  · intro hv
    refine ⟨?_, ?_, ?_, ?_, ?_⟩
    · cases hpb : parseBoolGo v <;>
        simp [Container.EnvBool, Container.EnvFileBool, hg, hL, hpb, bne_iff_ne, hv]
    · cases hpb : atoiGo v <;>
        simp [Container.EnvInt, Container.EnvFileInt, hg, hL, hpb, bne_iff_ne, hv]
    · cases hpb : parseFloatGo v <;>
        simp [Container.EnvFloat, Container.EnvFileFloat, hg, hL, hpb, bne_iff_ne, hv]
    · simp [Container.EnvString, Container.EnvFileString, hg, hL, bne_iff_ne, hv]
    · simp [Container.EnvTime, Container.EnvFileTime, hg, hL, bne_iff_ne, hv]
  · intro hv
    subst hv
    refine ⟨?_, ?_, ?_⟩
    · simp [Container.EnvBool, Container.EnvFileBool, hg, hL, parseBoolGo]
    · simp [Container.EnvInt, Container.EnvFileInt, hg, hL, atoiGo, digitsVal]
    · simp [Container.EnvFloat, Container.EnvFileFloat, hg, hL, parseFloatGo,
        floatMantissa, splitN2, digitsVal]

/-- C5 amended, witness: at the non-empty value `7070` the int accessors
agree, and at the empty value the bool accessors agree. -/
theorem claim5_amended_witness :
    Container.EnvInt (fun k => if k == "HOST_PORT".data then "7070".data else [])
        (portCont none [("HOST_PORT".data, "7070".data)]) =
      Container.EnvFileInt (portCont none [("HOST_PORT".data, "7070".data)]) ∧
    Container.EnvBool envNone strContEmptyFile =
      Container.EnvFileBool strContEmptyFile := by
  constructor
  · exact ((claim5_amended _ _ "7070".data (by decide) (by decide)).1 (by decide)).2.1
  · exact ((claim5_amended envNone strContEmptyFile [] (by decide) (by decide)).2 rfl).1

/-- A bool-typed field with default `false`, environment name `VB`, env-file
`VB=0`, and flag set to `true`. -/
def boolCont : Container :=
  { fieldType := "bool".data, flagName := "v".data, envName := "VB".data,
    defaultValue := "false".data, description := [],
    envFile := [("VB".data, "0".data)], boolValue := some true }

/-- A float64-typed field with default `2` and its flag unset. -/
def floatCont : Container :=
  { fieldType := "float64".data, flagName := "r".data, envName := "VF".data,
    defaultValue := "2".data, description := [], envFile := [],
    floatValue := some ((2 : Nat) : ℚ) }

/-- A string-typed field with default `localhost:8080`, env-file
`HOST=filehost`, and its flag unset. -/
def strCont : Container :=
  { fieldType := "string".data, flagName := "host".data, envName := "HOST".data,
    defaultValue := "localhost:8080".data, description := [],
    envFile := [("HOST".data, "filehost".data)],
    stringValue := some "localhost:8080".data }

/-- C1: for bool, int, float64 and string fields the resolution pass applies
sources in strictly increasing precedence — with a parsable environment
value, a parsable env-file entry and an explicitly set flag (current value
differing from the parsed default) all present the flag wins; with the flag
unset the env-file entry wins; with neither the environment value wins; with
none the parsed default stands. -/
theorem claim1_precedence (g : Str → Str) (c : Container) :
    (c.fieldType = "int".data →
      (∀ ev fraw fv gv,
          atoiGo (g c.envName) = some ev →
          lookupEF c.envFile c.envName = some fraw →
          atoiGo fraw = some fv →
          c.intValue = some gv →
          gv ≠ c.DefaultValueToInt →
          resolveField g c = some (.i gv)) ∧
      (∀ ev fraw fv,
          atoiGo (g c.envName) = some ev →
          lookupEF c.envFile c.envName = some fraw →
          atoiGo fraw = some fv →
          c.intValue = some c.DefaultValueToInt →
          resolveField g c = some (.i fv)) ∧
      (∀ ev,
          atoiGo (g c.envName) = some ev →
          lookupEF c.envFile c.envName = none →
          c.intValue = some c.DefaultValueToInt →
          resolveField g c = some (.i ev)) ∧
      (g c.envName = [] →
          lookupEF c.envFile c.envName = none →
          c.intValue = some c.DefaultValueToInt →
          resolveField g c = some (.i c.DefaultValueToInt))) ∧
    (c.fieldType = "bool".data →
      (∀ ev fraw fv gv,
          parseBoolGo (g c.envName) = some ev →
          lookupEF c.envFile c.envName = some fraw →
          parseBoolGo fraw = some fv →
          c.boolValue = some gv →
          gv ≠ c.DefaultValueToBool →
          resolveField g c = some (.b gv)) ∧
      (∀ ev fraw fv,
          parseBoolGo (g c.envName) = some ev →
          lookupEF c.envFile c.envName = some fraw →
          parseBoolGo fraw = some fv →
          c.boolValue = some c.DefaultValueToBool →
          resolveField g c = some (.b fv)) ∧
      (∀ ev,
          parseBoolGo (g c.envName) = some ev →
          lookupEF c.envFile c.envName = none →
          c.boolValue = some c.DefaultValueToBool →
          resolveField g c = some (.b ev)) ∧
      (g c.envName = [] →
          lookupEF c.envFile c.envName = none →
          c.boolValue = some c.DefaultValueToBool →
          resolveField g c = some (.b c.DefaultValueToBool))) ∧
    (c.fieldType = "float64".data →
      (∀ ev fraw fv gv,
          parseFloatGo (g c.envName) = some ev →
          lookupEF c.envFile c.envName = some fraw →
          parseFloatGo fraw = some fv →
          c.floatValue = some gv →
          gv ≠ c.DefaultValueToFloat →
          resolveField g c = some (.f gv)) ∧
      (∀ ev fraw fv,
          parseFloatGo (g c.envName) = some ev →
          lookupEF c.envFile c.envName = some fraw →
          parseFloatGo fraw = some fv →
          c.floatValue = some c.DefaultValueToFloat →
          resolveField g c = some (.f fv)) ∧
      (∀ ev,
          parseFloatGo (g c.envName) = some ev →
          lookupEF c.envFile c.envName = none →
          c.floatValue = some c.DefaultValueToFloat →
          resolveField g c = some (.f ev)) ∧
      (g c.envName = [] →
          lookupEF c.envFile c.envName = none →
          c.floatValue = some c.DefaultValueToFloat →
          resolveField g c = some (.f c.DefaultValueToFloat))) ∧
    (c.fieldType = "string".data →
      (∀ fraw gv,
          g c.envName ≠ [] →
          lookupEF c.envFile c.envName = some fraw →
          c.stringValue = some gv →
          gv ≠ c.DefaultValueToString →
          resolveField g c = some (.s gv)) ∧
      (∀ fraw,
          g c.envName ≠ [] →
          lookupEF c.envFile c.envName = some fraw →
          c.stringValue = some c.DefaultValueToString →
          resolveField g c = some (.s fraw)) ∧
      (g c.envName ≠ [] →
          lookupEF c.envFile c.envName = none →
          c.stringValue = some c.DefaultValueToString →
          resolveField g c = some (.s (g c.envName))) ∧
      (g c.envName = [] →
          lookupEF c.envFile c.envName = none →
          c.stringValue = some c.DefaultValueToString →
          resolveField g c = some (.s c.DefaultValueToString))) := by
  refine ⟨?_, ?_, ?_, ?_⟩
  · intro hft
    have hb : c.IsBool = false := by unfold Container.IsBool; rw [hft]; decide
    have hfl : c.IsFloat = false := by unfold Container.IsFloat; rw [hft]; decide
    have hii : c.IsInt = true := by unfold Container.IsInt; rw [hft]; decide
    have hst : c.IsString = false := by unfold Container.IsString; rw [hft]; decide
    have hti : c.IsTime = false := by unfold Container.IsTime; rw [hft]; decide
    refine ⟨?_, ?_, ?_, ?_⟩
    · intro ev fraw fv gv hEnv hL hF hG hne
      have hne0 : g c.envName ≠ [] := by
        intro h0; rw [h0] at hEnv
        simp [atoiGo, parseBoolGo, parseFloatGo, floatMantissa, splitN2, digitsVal] at hEnv
      have hE : c.EnvInt g = (ev, true) := by
        simp [Container.EnvInt, hEnv, bne_iff_ne, hne0]
      have hEF : c.EnvFileInt = (fv, true) := by
        simp [Container.EnvFileInt, hL, hF]
      have hFl : c.FlagInt = (gv, true) := by
        simp [Container.FlagInt, hG, bne_iff_ne, hne]
      simp [resolveField, beholdApply, SetDefaultValueOnConfig,
        hb, hfl, hii, hst, hti, hE, hEF, hFl]
    · intro ev fraw fv hEnv hL hF hG
      have hne0 : g c.envName ≠ [] := by
        intro h0; rw [h0] at hEnv
        simp [atoiGo, parseBoolGo, parseFloatGo, floatMantissa, splitN2, digitsVal] at hEnv
      have hE : c.EnvInt g = (ev, true) := by
        simp [Container.EnvInt, hEnv, bne_iff_ne, hne0]
      have hEF : c.EnvFileInt = (fv, true) := by
        simp [Container.EnvFileInt, hL, hF]
      have hFl : c.FlagInt = (0, false) := by
        simp [Container.FlagInt, hG]
      simp [resolveField, beholdApply, SetDefaultValueOnConfig,
        hb, hfl, hii, hst, hti, hE, hEF, hFl]
    · intro ev hEnv hL hG
      have hne0 : g c.envName ≠ [] := by
        intro h0; rw [h0] at hEnv
        simp [atoiGo, parseBoolGo, parseFloatGo, floatMantissa, splitN2, digitsVal] at hEnv
      have hE : c.EnvInt g = (ev, true) := by
        simp [Container.EnvInt, hEnv, bne_iff_ne, hne0]
      have hEF : c.EnvFileInt = (0, false) := by
        simp [Container.EnvFileInt, hL]
      have hFl : c.FlagInt = (0, false) := by
        simp [Container.FlagInt, hG]
      simp [resolveField, beholdApply, SetDefaultValueOnConfig,
        hb, hfl, hii, hst, hti, hE, hEF, hFl]
    · intro hg0 hL hG
      have hE : c.EnvInt g = (0, false) := by
        simp [Container.EnvInt, hg0]
      have hEF : c.EnvFileInt = (0, false) := by
        simp [Container.EnvFileInt, hL]
      have hFl : c.FlagInt = (0, false) := by
        simp [Container.FlagInt, hG]
      simp [resolveField, beholdApply, SetDefaultValueOnConfig,
        hb, hfl, hii, hst, hti, hE, hEF, hFl]
  · intro hft
    have hb : c.IsBool = true := by unfold Container.IsBool; rw [hft]; decide
    have hfl : c.IsFloat = false := by unfold Container.IsFloat; rw [hft]; decide
    have hii : c.IsInt = false := by unfold Container.IsInt; rw [hft]; decide
    have hst : c.IsString = false := by unfold Container.IsString; rw [hft]; decide
    have hti : c.IsTime = false := by unfold Container.IsTime; rw [hft]; decide
    refine ⟨?_, ?_, ?_, ?_⟩
    · intro ev fraw fv gv hEnv hL hF hG hne
      have hne0 : g c.envName ≠ [] := by
        intro h0; rw [h0] at hEnv
        simp [atoiGo, parseBoolGo, parseFloatGo, floatMantissa, splitN2, digitsVal] at hEnv
      have hE : c.EnvBool g = (ev, true) := by
        simp [Container.EnvBool, hEnv, bne_iff_ne, hne0]
      have hEF : c.EnvFileBool = (fv, true) := by
        simp [Container.EnvFileBool, hL, hF]
      have hFl : c.FlagBool = (gv, true) := by
        simp [Container.FlagBool, hG, bne_iff_ne, hne]
      simp [resolveField, beholdApply, SetDefaultValueOnConfig,
        hb, hfl, hii, hst, hti, hE, hEF, hFl]
    · intro ev fraw fv hEnv hL hF hG
      have hne0 : g c.envName ≠ [] := by
        intro h0; rw [h0] at hEnv
        simp [atoiGo, parseBoolGo, parseFloatGo, floatMantissa, splitN2, digitsVal] at hEnv
      have hE : c.EnvBool g = (ev, true) := by
        simp [Container.EnvBool, hEnv, bne_iff_ne, hne0]
      have hEF : c.EnvFileBool = (fv, true) := by
        simp [Container.EnvFileBool, hL, hF]
      have hFl : c.FlagBool = (false, false) := by
        simp [Container.FlagBool, hG]
      simp [resolveField, beholdApply, SetDefaultValueOnConfig,
        hb, hfl, hii, hst, hti, hE, hEF, hFl]
    · intro ev hEnv hL hG
      have hne0 : g c.envName ≠ [] := by
        intro h0; rw [h0] at hEnv
        simp [atoiGo, parseBoolGo, parseFloatGo, floatMantissa, splitN2, digitsVal] at hEnv
      have hE : c.EnvBool g = (ev, true) := by
        simp [Container.EnvBool, hEnv, bne_iff_ne, hne0]
      have hEF : c.EnvFileBool = (false, false) := by
        simp [Container.EnvFileBool, hL]
      have hFl : c.FlagBool = (false, false) := by
        simp [Container.FlagBool, hG]
      simp [resolveField, beholdApply, SetDefaultValueOnConfig,
        hb, hfl, hii, hst, hti, hE, hEF, hFl]
    · intro hg0 hL hG
      have hE : c.EnvBool g = (false, false) := by
        simp [Container.EnvBool, hg0]
      have hEF : c.EnvFileBool = (false, false) := by
        simp [Container.EnvFileBool, hL]
      have hFl : c.FlagBool = (false, false) := by
        simp [Container.FlagBool, hG]
      simp [resolveField, beholdApply, SetDefaultValueOnConfig,
        hb, hfl, hii, hst, hti, hE, hEF, hFl]
  · intro hft
    have hb : c.IsBool = false := by unfold Container.IsBool; rw [hft]; decide
    have hfl : c.IsFloat = true := by unfold Container.IsFloat; rw [hft]; decide
    have hii : c.IsInt = false := by unfold Container.IsInt; rw [hft]; decide
    have hst : c.IsString = false := by unfold Container.IsString; rw [hft]; decide
    have hti : c.IsTime = false := by unfold Container.IsTime; rw [hft]; decide
    refine ⟨?_, ?_, ?_, ?_⟩
    · intro ev fraw fv gv hEnv hL hF hG hne
      have hne0 : g c.envName ≠ [] := by
        intro h0; rw [h0] at hEnv
        simp [atoiGo, parseBoolGo, parseFloatGo, floatMantissa, splitN2, digitsVal] at hEnv
      have hE : c.EnvFloat g = (ev, true) := by
        simp [Container.EnvFloat, hEnv, bne_iff_ne, hne0]
      have hEF : c.EnvFileFloat = (fv, true) := by
        simp [Container.EnvFileFloat, hL, hF]
      have hFl : c.FlagFloat = (gv, true) := by
        simp [Container.FlagFloat, hG, bne_iff_ne, hne]
      simp [resolveField, beholdApply, SetDefaultValueOnConfig,
        hb, hfl, hii, hst, hti, hE, hEF, hFl]
    · intro ev fraw fv hEnv hL hF hG
      have hne0 : g c.envName ≠ [] := by
        intro h0; rw [h0] at hEnv
        simp [atoiGo, parseBoolGo, parseFloatGo, floatMantissa, splitN2, digitsVal] at hEnv
      have hE : c.EnvFloat g = (ev, true) := by
        simp [Container.EnvFloat, hEnv, bne_iff_ne, hne0]
      have hEF : c.EnvFileFloat = (fv, true) := by
        simp [Container.EnvFileFloat, hL, hF]
      have hFl : c.FlagFloat = (0, false) := by
        simp [Container.FlagFloat, hG]
      simp [resolveField, beholdApply, SetDefaultValueOnConfig,
        hb, hfl, hii, hst, hti, hE, hEF, hFl]
    · intro ev hEnv hL hG
      have hne0 : g c.envName ≠ [] := by
        intro h0; rw [h0] at hEnv
        simp [atoiGo, parseBoolGo, parseFloatGo, floatMantissa, splitN2, digitsVal] at hEnv
      have hE : c.EnvFloat g = (ev, true) := by
        simp [Container.EnvFloat, hEnv, bne_iff_ne, hne0]
      have hEF : c.EnvFileFloat = (0, false) := by
        simp [Container.EnvFileFloat, hL]
      have hFl : c.FlagFloat = (0, false) := by
        simp [Container.FlagFloat, hG]
      simp [resolveField, beholdApply, SetDefaultValueOnConfig,
        hb, hfl, hii, hst, hti, hE, hEF, hFl]
    · intro hg0 hL hG
      have hE : c.EnvFloat g = (0, false) := by
        simp [Container.EnvFloat, hg0]
      have hEF : c.EnvFileFloat = (0, false) := by
        simp [Container.EnvFileFloat, hL]
      have hFl : c.FlagFloat = (0, false) := by
        simp [Container.FlagFloat, hG]
      simp [resolveField, beholdApply, SetDefaultValueOnConfig,
        hb, hfl, hii, hst, hti, hE, hEF, hFl]
  · intro hft
    have hb : c.IsBool = false := by unfold Container.IsBool; rw [hft]; decide
    have hfl : c.IsFloat = false := by unfold Container.IsFloat; rw [hft]; decide
    have hii : c.IsInt = false := by unfold Container.IsInt; rw [hft]; decide
    have hst : c.IsString = true := by unfold Container.IsString; rw [hft]; decide
    have hti : c.IsTime = false := by unfold Container.IsTime; rw [hft]; decide
    refine ⟨?_, ?_, ?_, ?_⟩
    · intro fraw gv hne0 hL hG hne
      have hE : c.EnvString g = (g c.envName, true) := by
        simp [Container.EnvString, bne_iff_ne, hne0]
      have hEF : c.EnvFileString = (fraw, true) := by
        simp [Container.EnvFileString, hL]
      have hFl : c.FlagString = (gv, true) := by
        simp [Container.FlagString, hG, bne_iff_ne, hne]
      simp [resolveField, beholdApply, SetDefaultValueOnConfig,
        hb, hfl, hii, hst, hti, hE, hEF, hFl]
    · intro fraw hne0 hL hG
      have hE : c.EnvString g = (g c.envName, true) := by
        simp [Container.EnvString, bne_iff_ne, hne0]
      have hEF : c.EnvFileString = (fraw, true) := by
        simp [Container.EnvFileString, hL]
      have hFl : c.FlagString = ([], false) := by
        simp [Container.FlagString, hG]
      simp [resolveField, beholdApply, SetDefaultValueOnConfig,
        hb, hfl, hii, hst, hti, hE, hEF, hFl]
    · intro hne0 hL hG
      have hE : c.EnvString g = (g c.envName, true) := by
        simp [Container.EnvString, bne_iff_ne, hne0]
      have hEF : c.EnvFileString = ([], false) := by
        simp [Container.EnvFileString, hL]
      have hFl : c.FlagString = ([], false) := by
        simp [Container.FlagString, hG]
      simp [resolveField, beholdApply, SetDefaultValueOnConfig,
        hb, hfl, hii, hst, hti, hE, hEF, hFl]
    · intro hg0 hL hG
      have hE : c.EnvString g = ([], false) := by
        simp [Container.EnvString, hg0]
      have hEF : c.EnvFileString = ([], false) := by
        simp [Container.EnvFileString, hL]
      have hFl : c.FlagString = ([], false) := by
        simp [Container.FlagString, hG]
      simp [resolveField, beholdApply, SetDefaultValueOnConfig,
        hb, hfl, hii, hst, hti, hE, hEF, hFl]

/-- C1 witness: the spec's port example for the int field (flag wins, then
env-file, then environment, then default), a bool field where the set flag
wins, a float field resolving to its default, and a string field where the
env-file entry beats a present environment value. -/
theorem claim1_precedence_witness :
    resolveField envPort (portCont (some 6060) [("HOST_PORT".data, "7070".data)]) =
      some (.i 6060) ∧
    resolveField envPort (portCont (some 8080) [("HOST_PORT".data, "7070".data)]) =
      some (.i 7070) ∧
    resolveField envPort (portCont (some 8080) []) = some (.i 9090) ∧
    resolveField envNone (portCont (some 8080) []) = some (.i 8080) ∧
    resolveField (fun _ => "1".data) boolCont = some (.b true) ∧
    resolveField envNone floatCont = some (.f ((2 : Nat) : ℚ)) ∧
    resolveField (fun _ => "oshost".data) strCont = some (.s "filehost".data) := by
  refine ⟨?_, ?_, ?_, ?_, ?_, ?_, ?_⟩
  · exact ((claim1_precedence envPort _).1 rfl).1 9090 "7070".data 7070 6060
      (by decide) (by decide) (by decide) rfl (by decide)
  · exact ((claim1_precedence envPort _).1 rfl).2.1 9090 "7070".data 7070
      (by decide) (by decide) (by decide) (by decide)
  · exact ((claim1_precedence envPort _).1 rfl).2.2.1 9090
      (by decide) (by decide) (by decide)
  · exact ((claim1_precedence envNone _).1 rfl).2.2.2
      (by decide) (by decide) (by decide)
  · exact ((claim1_precedence (fun _ => "1".data) boolCont).2.1 rfl).1 true "0".data false true
      (by decide) (by decide) (by decide) rfl (by decide)
  · exact ((claim1_precedence envNone floatCont).2.2.1 rfl).2.2.2
      (by decide) (by decide) rfl
  · exact ((claim1_precedence (fun _ => "oshost".data) strCont).2.2.2 rfl).2.1 "filehost".data
      (by decide) (by decide) (by decide)

lemma addFlag_fieldType (c : Container) : (addFlag c).fieldType = c.fieldType := by
  unfold addFlag
  dsimp only
  split_ifs <;> rfl

lemma addFlag_defaultValue (c : Container) : (addFlag c).defaultValue = c.defaultValue := by
  unfold addFlag
  dsimp only
  split_ifs <;> rfl

lemma New_ok (fm : FieldMeta) (ef : List (Str × Str)) (hcs : fm.canSet = true)
    (fl : Str) (hfl : fm.flagTag = some fl) :
    ∃ c : Container, New fm ef = .ok (c, SetDefaultValueOnConfig c none) ∧
      c.fieldType = fm.fieldType ∧ c.defaultValue = fm.defaultTag.getD [] := by
  refine ⟨addFlag
    { fieldType := fm.fieldType, flagName := fl, envName := fm.envTag.getD []
      defaultValue := fm.defaultTag.getD [], description := fm.descTag.getD []
      envFile := ef }, ?_, ?_, ?_⟩
  · simp [New, hcs, hfl]
  · rw [addFlag_fieldType]
  · rw [addFlag_defaultValue]

lemma setDefault_bool (c : Container) (h : c.fieldType = "bool".data) :
    SetDefaultValueOnConfig c none = some (.b c.DefaultValueToBool) := by
  have hb : c.IsBool = true := by unfold Container.IsBool; rw [h]; decide
  have hfl : c.IsFloat = false := by unfold Container.IsFloat; rw [h]; decide
  have hii : c.IsInt = false := by unfold Container.IsInt; rw [h]; decide
  have hst : c.IsString = false := by unfold Container.IsString; rw [h]; decide
  have hti : c.IsTime = false := by unfold Container.IsTime; rw [h]; decide
  simp [SetDefaultValueOnConfig, hb, hfl, hii, hst, hti]

lemma setDefault_int (c : Container) (h : c.fieldType = "int".data) :
    SetDefaultValueOnConfig c none = some (.i c.DefaultValueToInt) := by
  have hb : c.IsBool = false := by unfold Container.IsBool; rw [h]; decide
  have hfl : c.IsFloat = false := by unfold Container.IsFloat; rw [h]; decide
  have hii : c.IsInt = true := by unfold Container.IsInt; rw [h]; decide
  have hst : c.IsString = false := by unfold Container.IsString; rw [h]; decide
  have hti : c.IsTime = false := by unfold Container.IsTime; rw [h]; decide
  simp [SetDefaultValueOnConfig, hb, hfl, hii, hst, hti]

lemma setDefault_float (c : Container) (h : c.fieldType = "float64".data) :
    SetDefaultValueOnConfig c none = some (.f c.DefaultValueToFloat) := by
  have hb : c.IsBool = false := by unfold Container.IsBool; rw [h]; decide
  have hfl : c.IsFloat = true := by unfold Container.IsFloat; rw [h]; decide
  have hii : c.IsInt = false := by unfold Container.IsInt; rw [h]; decide
  have hst : c.IsString = false := by unfold Container.IsString; rw [h]; decide
  have hti : c.IsTime = false := by unfold Container.IsTime; rw [h]; decide
  simp [SetDefaultValueOnConfig, hb, hfl, hii, hst, hti]

lemma setDefault_string (c : Container) (h : c.fieldType = "string".data) :
    SetDefaultValueOnConfig c none = some (.s c.DefaultValueToString) := by
  have hb : c.IsBool = false := by unfold Container.IsBool; rw [h]; decide
  have hfl : c.IsFloat = false := by unfold Container.IsFloat; rw [h]; decide
  have hii : c.IsInt = false := by unfold Container.IsInt; rw [h]; decide
  have hst : c.IsString = true := by unfold Container.IsString; rw [h]; decide
  have hti : c.IsTime = false := by unfold Container.IsTime; rw [h]; decide
  simp [SetDefaultValueOnConfig, hb, hfl, hii, hst, hti]

lemma setDefault_time (c : Container) (h : c.fieldType = "time.time".data) :
    SetDefaultValueOnConfig c none = some (.t c.DefaultValueToTime) := by
  have hti : c.IsTime = true := by unfold Container.IsTime; rw [h]; decide
  simp [SetDefaultValueOnConfig, hti]

/-- C8: construction returns `ErrCantSet` whenever the field's storage
cannot be set, regardless of tags; otherwise `ErrNoFlagName` whenever the
`flag` tag is absent; otherwise it succeeds and writes into the field the
type-appropriate parse of the `default` tag, or the type's zero value
(false / 0 / 0.0 / empty string default / zero timestamp) when that parse
fails. -/
theorem claim8_construction (fm : FieldMeta) (ef : List (Str × Str)) :
    (fm.canSet = false → New fm ef = .error .errCantSet) ∧
    (fm.canSet = true → fm.flagTag = none → New fm ef = .error .errNoFlagName) ∧
    (fm.canSet = true → ∀ fl, fm.flagTag = some fl →
      (fm.fieldType = "bool".data →
        (∀ b, parseBoolGo (fm.defaultTag.getD []) = some b →
          Except.map (fun p => p.2) (New fm ef) = .ok (some (.b b))) ∧
        (parseBoolGo (fm.defaultTag.getD []) = none →
          Except.map (fun p => p.2) (New fm ef) = .ok (some (.b false)))) ∧
      (fm.fieldType = "int".data →
        (∀ n, atoiGo (fm.defaultTag.getD []) = some n →
          Except.map (fun p => p.2) (New fm ef) = .ok (some (.i n))) ∧
        (atoiGo (fm.defaultTag.getD []) = none →
          Except.map (fun p => p.2) (New fm ef) = .ok (some (.i 0)))) ∧
      (fm.fieldType = "float64".data →
        (∀ q, parseFloatGo (fm.defaultTag.getD []) = some q →
          Except.map (fun p => p.2) (New fm ef) = .ok (some (.f q))) ∧
        (parseFloatGo (fm.defaultTag.getD []) = none →
          Except.map (fun p => p.2) (New fm ef) = .ok (some (.f 0)))) ∧
      (fm.fieldType = "string".data →
        Except.map (fun p => p.2) (New fm ef) = .ok (some (.s (fm.defaultTag.getD [])))) ∧
      (fm.fieldType = "time.time".data →
        (isTimeGo (fm.defaultTag.getD []) = true →
          Except.map (fun p => p.2) (New fm ef) =
            .ok (some (.t (parseTimeVal (fm.defaultTag.getD []))))) ∧
        (isTimeGo (fm.defaultTag.getD []) = false →
          Except.map (fun p => p.2) (New fm ef) = .ok (some (.t zeroTime))))) := by
  refine ⟨?_, ?_, ?_⟩
  · intro hcs
    simp [New, hcs]
  · intro hcs hfl
    simp [New, hcs, hfl]
  · intro hcs fl hfl
    obtain ⟨c, hNew, hty, hdv⟩ := New_ok fm ef hcs fl hfl
    refine ⟨?_, ?_, ?_, ?_, ?_⟩
    · intro h
      constructor
      · intro b hpb
        rw [hNew, setDefault_bool c (hty.trans h)]
        simp [Except.map, Container.DefaultValueToBool, hdv, hpb]
      · intro hpb
        rw [hNew, setDefault_bool c (hty.trans h)]
        simp [Except.map, Container.DefaultValueToBool, hdv, hpb]
    · intro h
      constructor
      · intro n hpb
        rw [hNew, setDefault_int c (hty.trans h)]
        simp [Except.map, Container.DefaultValueToInt, hdv, hpb]
      · intro hpb
        rw [hNew, setDefault_int c (hty.trans h)]
        simp [Except.map, Container.DefaultValueToInt, hdv, hpb]
    · intro h
      constructor
      · intro q hpb
        rw [hNew, setDefault_float c (hty.trans h)]
        simp [Except.map, Container.DefaultValueToFloat, hdv, hpb]
      · intro hpb
        rw [hNew, setDefault_float c (hty.trans h)]
        simp [Except.map, Container.DefaultValueToFloat, hdv, hpb]
    · intro h
      rw [hNew, setDefault_string c (hty.trans h)]
      simp [Except.map, Container.DefaultValueToString, hdv]
    · intro h
      constructor
      · intro hit
        rw [hNew, setDefault_time c (hty.trans h)]
        simp [Except.map, Container.DefaultValueToTime, hdv, hit]
      · intro hit
        rw [hNew, setDefault_time c (hty.trans h)]
        simp [Except.map, Container.DefaultValueToTime, hdv, hit]

/-- C8 witness: an unsettable int field fails with `ErrCantSet` even though
all tags are present; a settable field without a `flag` tag fails with
`ErrNoFlagName`; successful construction writes the parsed default `8080`,
the zero value `0` for the unparsable default `bad`, and midnight UTC of
`2006-01-02` for a timestamp default. -/
theorem claim8_construction_witness :
    New { canSet := false, fieldType := "int".data, flagTag := some "p".data,
          envTag := some "P".data, defaultTag := some "8080".data,
          descTag := none } [] = .error .errCantSet ∧
    New { canSet := true, fieldType := "int".data, flagTag := none,
          envTag := some "P".data, defaultTag := some "8080".data,
          descTag := none } [] = .error .errNoFlagName ∧
    Except.map (fun p => p.2)
      (New { canSet := true, fieldType := "int".data, flagTag := some "p".data,
             envTag := none, defaultTag := some "8080".data, descTag := none } []) =
      .ok (some (.i 8080)) ∧
    Except.map (fun p => p.2)
      (New { canSet := true, fieldType := "int".data, flagTag := some "p".data,
             envTag := none, defaultTag := some "bad".data, descTag := none } []) =
      .ok (some (.i 0)) ∧
    Except.map (fun p => p.2)
      (New { canSet := true, fieldType := "time.time".data, flagTag := some "t".data,
             envTag := none, defaultTag := some "2006-01-02".data, descTag := none } []) =
      .ok (some (.t (mkInstant 2006 1 2 0 0 0 0))) := by
  refine ⟨?_, ?_, ?_, ?_, ?_⟩
  · exact (claim8_construction _ []).1 rfl
  · exact (claim8_construction _ []).2.1 rfl rfl
  · exact (((claim8_construction _ []).2.2 rfl "p".data rfl).2.1 rfl).1 8080 (by decide)
  · exact (((claim8_construction _ []).2.2 rfl "p".data rfl).2.1 rfl).2 (by decide)
  · have h := (((claim8_construction
      { canSet := true, fieldType := "time.time".data, flagTag := some "t".data,
        envTag := none, defaultTag := some "2006-01-02".data, descTag := none }
      []).2.2 rfl "t".data rfl).2.2.2.2 rfl).1 (by decide)
    simp only [Option.getD] at h
    have he : parseTimeVal "2006-01-02".data = mkInstant 2006 1 2 0 0 0 0 := by decide
    rw [he] at h
    exact h

lemma dropWhile_cons_false (p : Char → Bool) (a : Char) (l : Str) (h : p a = false) :
    List.dropWhile p (a :: l) = a :: l := by
  simp [List.dropWhile_cons, h]

lemma trimBlanks_of_ends (a b : Char) (v : Str) (ha : (a == ' ') = false)
    (hb : (b == ' ') = false) :
    trimBlanks (a :: (v ++ [b])) = a :: (v ++ [b]) := by
  unfold trimBlanks
  rw [dropWhile_cons_false (fun x => x == ' ') a (v ++ [b]) ha]
  have hrev : (a :: (v ++ [b])).reverse = b :: (v.reverse ++ [a]) := by
    simp
  rw [hrev, dropWhile_cons_false (fun x => x == ' ') b (v.reverse ++ [a]) hb,
    ← hrev, List.reverse_reverse]

lemma quotedBy_wrap (q : Char) (v : Str) (hn : '\n' ∉ v) :
    quotedBy q (q :: (v ++ [q])) = true := by
  simp [quotedBy, List.getLast?_concat, List.dropLast_concat, hn]

lemma quotedBy_other (q q' : Char) (hqq : (q == q') = false) (v : Str) :
    quotedBy q' (q :: (v ++ [q])) = false := by
  simp [quotedBy, hqq]

lemma parseValue_single_quoted (v : Str) (hn : '\n' ∉ v) :
    parseValue ('\'' :: (v ++ ['\''])) = v := by
  have hsq := quotedBy_wrap '\'' v hn
  have hdq := quotedBy_other '\'' '"' (by decide) v
  have htb := trimBlanks_of_ends '\'' '\'' v (by decide) (by decide)
  simp only [parseValue, htb, hsq, hdq]
  simp [List.dropLast_concat]

lemma parseValue_double_quoted (v : Str) (hn : '\n' ∉ v) :
    parseValue ('"' :: (v ++ ['"'])) = unescapeChars (expandEscapes v) := by
  have hdq := quotedBy_wrap '"' v hn
  have hsq := quotedBy_other '"' '\'' (by decide) v
  have htb := trimBlanks_of_ends '"' '"' v (by decide) (by decide)
  simp only [parseValue, htb, hsq, hdq]
  simp [List.dropLast_concat]

/-- C7: double-quoted env-file values get the two escape passes — `\n`
becomes a newline, `\r` a carriage return, any other escaped character is
left by the first pass and then stripped of its backslash by the second pass
unless it is `$` — while single-quoted and unquoted values receive no escape
processing, so `KEY='line1\nline2'` keeps the literal backslash-n. -/
theorem claim7_escape_processing :
    parseLine "KEY=\"line1\\nline2\"".data = .ok ("KEY".data, "line1\nline2".data) ∧
    parseLine "KEY='line1\\nline2'".data = .ok ("KEY".data, "line1\\nline2".data) ∧
    (∀ v : Str, '\n' ∉ v →
      parseValue ('"' :: (v ++ ['"'])) = unescapeChars (expandEscapes v)) ∧
    (∀ r : Str, expandEscapes ('\\' :: 'n' :: r) = '\n' :: expandEscapes r) ∧
    (∀ r : Str, expandEscapes ('\\' :: 'r' :: r) = '\r' :: expandEscapes r) ∧
    (∀ (c : Char) (r : Str), c ≠ 'n' → c ≠ 'r' → c ≠ '\n' →
      expandEscapes ('\\' :: c :: r) = '\\' :: c :: expandEscapes r) ∧
    (∀ (c : Char) (r : Str), c ≠ '$' →
      unescapeChars ('\\' :: c :: r) = c :: unescapeChars r) ∧
    (∀ r : Str, unescapeChars ('\\' :: '$' :: r) = '\\' :: '$' :: unescapeChars r) ∧
    (∀ v : Str, '\n' ∉ v → parseValue ('\'' :: (v ++ ['\''])) = v) ∧
    (∀ v : Str, quotedBy '\'' (trimBlanks v) = false →
      quotedBy '"' (trimBlanks v) = false → parseValue v = trimBlanks v) := by
  refine ⟨by decide, by decide, ?_, ?_, ?_, ?_, ?_, ?_, ?_, ?_⟩
  · exact fun v hn => parseValue_double_quoted v hn
  · intro r
    simp [expandEscapes]
  · intro r
    simp [expandEscapes]
  · intro c r hcn hcr hnl
    simp [expandEscapes, hcn, hcr, hnl]
  · intro c r hc
    simp [unescapeChars, hc]
  · intro r
    simp [unescapeChars]
  · exact fun v hn => parseValue_single_quoted v hn
  · intro v h1 h2
    simp [parseValue, h1, h2]

/-- C7 witness: the general clauses evaluated at concrete inputs — a
double-quoted `a\tb` loses the backslash, `\$` survives both passes, and an
unquoted `line1\nline2` is returned verbatim. -/
theorem claim7_escape_processing_witness :
    parseValue ('"' :: ("a\\tb".data ++ ['"'])) =
      unescapeChars (expandEscapes "a\\tb".data) ∧
    expandEscapes ('\\' :: 'n' :: "x".data) = '\n' :: expandEscapes "x".data ∧
    expandEscapes ('\\' :: 'r' :: "x".data) = '\r' :: expandEscapes "x".data ∧
    expandEscapes ('\\' :: 't' :: "x".data) = '\\' :: 't' :: expandEscapes "x".data ∧
    unescapeChars ('\\' :: 't' :: "x".data) = 't' :: unescapeChars "x".data ∧
    unescapeChars ('\\' :: '$' :: "x".data) = '\\' :: '$' :: unescapeChars "x".data ∧
    parseValue ('\'' :: ("line1\\nline2".data ++ ['\''])) = "line1\\nline2".data ∧
    parseValue "plain".data = trimBlanks "plain".data := by
  refine ⟨?_, ?_, ?_, ?_, ?_, ?_, ?_, ?_⟩
  · exact claim7_escape_processing.2.2.1 "a\\tb".data (by decide)
  · exact claim7_escape_processing.2.2.2.1 "x".data
  · exact claim7_escape_processing.2.2.2.2.1 "x".data
  · exact claim7_escape_processing.2.2.2.2.2.1 't' "x".data (by decide) (by decide) (by decide)
  · exact claim7_escape_processing.2.2.2.2.2.2.1 't' "x".data (by decide)
  · exact claim7_escape_processing.2.2.2.2.2.2.2.1 "x".data
  · exact claim7_escape_processing.2.2.2.2.2.2.2.2.1 "line1\\nline2".data (by decide)
  · exact claim7_escape_processing.2.2.2.2.2.2.2.2.2 "plain".data (by decide) (by decide)

lemma trimLeftW_head (l : Str) : ∀ a, (trimLeftW l).head? = some a → isSpaceGo a = false := by
  induction l with
  | nil => intro a ha; simp [trimLeftW] at ha
  | cons c l' ih =>
    intro a ha
    by_cases hc : isSpaceGo c = true
    · rw [trimLeftW, List.dropWhile_cons, if_pos hc] at ha
      exact ih a ha
    · rw [trimLeftW, List.dropWhile_cons, if_neg hc] at ha
      simp at ha
      rw [← ha]
      simpa using hc

lemma trimRightW_idem (l : Str) : trimRightW (trimRightW l) = trimRightW l := by
  unfold trimRightW
  rw [List.reverse_reverse, List.dropWhile_idempotent]

lemma trimRightW_prefix (l : Str) : trimRightW l <+: l := by
  unfold trimRightW
  have h := List.dropWhile_suffix (l := l.reverse) isSpaceGo
  have h2 := List.reverse_prefix.mpr h
  rwa [List.reverse_reverse] at h2

lemma trimLeft_trimRight (l : Str) :
    trimLeftW (trimRightW (trimLeftW l)) = trimRightW (trimLeftW l) := by
  cases hz : trimRightW (trimLeftW l) with
  | nil => simp [trimLeftW]
  | cons b r =>
    have hpre : trimRightW (trimLeftW l) <+: trimLeftW l := trimRightW_prefix _
    rw [hz] at hpre
    have hhead : (trimLeftW l).head? = some b := by
      obtain ⟨t, ht⟩ := hpre
      rw [← ht]
      simp
    have hb : isSpaceGo b = false := trimLeftW_head l b hhead
    rw [trimLeftW, List.dropWhile_cons, if_neg (by simp [hb])]

lemma trimSpaceGo_idem (l : Str) : trimSpaceGo (trimSpaceGo l) = trimSpaceGo l := by
  unfold trimSpaceGo
  rw [trimLeft_trimRight, trimRightW_idem]

lemma parseLine_key_trimmed (l k v : Str) (h : parseLine l = .ok (k, v)) :
    trimSpaceGo k = k := by
  unfold parseLine at h
  by_cases h0 : (l.length == 0) = true
  · rw [if_pos h0] at h
    exact absurd h (by simp)
  · rw [if_neg h0] at h
    dsimp only at h
    rcases hs : splitN2 '=' (processHashLine l) with ⟨k0, o⟩
    rw [hs] at h
    cases o with
    | none => simp at h
    | some v0 =>
      simp only [Except.ok.injEq, Prod.mk.injEq] at h
      rw [← h.1]
      exact trimSpaceGo_idem _

lemma upsert_trimmed (k v : Str) (hk : trimSpaceGo k = k) :
    ∀ acc, (∀ p ∈ acc, trimSpaceGo p.1 = p.1) →
      ∀ p ∈ upsert k v acc, trimSpaceGo p.1 = p.1 := by
  intro acc
  induction acc with
  | nil =>
    intro _ p hp
    simp [upsert] at hp
    rw [hp]
    exact hk
  | cons q acc' ih =>
    intro hacc p hp
    rcases q with ⟨k', v'⟩
    unfold upsert at hp
    by_cases he : (k' == k) = true
    · rw [if_pos he] at hp
      rcases List.mem_cons.mp hp with h1 | h1
      · rw [h1]; exact hk
      · exact hacc _ (List.mem_cons_of_mem _ h1)
    · rw [if_neg he] at hp
      rcases List.mem_cons.mp hp with h1 | h1
      · rw [h1]; exact hacc _ (List.mem_cons_self _ _)
      · exact ih (fun p hp => hacc p (List.mem_cons_of_mem _ hp)) p h1

lemma parseLinesAux_trimmed (ls : List Str) : ∀ (acc m : List (Str × Str)),
    (∀ p ∈ acc, trimSpaceGo p.1 = p.1) → parseLinesAux acc ls = .ok m →
    ∀ p ∈ m, trimSpaceGo p.1 = p.1 := by
  induction ls with
  | nil =>
    intro acc m hacc h
    have hm : acc = m := by simpa [parseLinesAux] using h
    rw [← hm]
    exact hacc
  | cons l ls' ih =>
    intro acc m hacc h
    unfold parseLinesAux at h
    by_cases hig : isIgnoredLine l = true
    · rw [if_pos hig] at h
      exact ih acc m hacc h
    · rw [if_neg hig] at h
      cases hp : parseLine l with
      | error e => rw [hp] at h; simp at h
      | ok kv =>
        rw [hp] at h
        rcases kv with ⟨k, v⟩
        exact ih _ m
          (upsert_trimmed k v (parseLine_key_trimmed l k v hp) acc hacc) h

/-- C10 amended: every key in a successfully parsed env-file mapping is
whitespace-trimmed (it equals its own trim); non-emptiness does not hold, as
the counterexample's line `=value` shows. -/
theorem claim10_amended (ls : List Str) (m : List (Str × Str))
    (h : parseLines ls = .ok m) : ∀ p ∈ m, trimSpaceGo p.1 = p.1 :=
  parseLinesAux_trimmed ls [] m (by simp) h

/-- C10 amended, witness: the key parsed from the line `  A = 1` is the
trimmed `A`. -/
theorem claim10_amended_witness : trimSpaceGo "A".data = "A".data :=
  claim10_amended ["  A = 1".data] [("A".data, "1".data)] (by decide)
    ("A".data, "1".data) (by decide)

lemma contains_iff (l : Str) (c : Char) : l.contains c = true ↔ c ∈ l := by
  unfold List.contains
  exact List.elem_iff

lemma countChar_append (c : Char) (p l : Str) :
    countChar c (p ++ l) = countChar c p + countChar c l := by
  unfold countChar
  rw [List.filter_append, List.length_append]

lemma splitOnChar_head (sep : Char) (l : Str) :
    ∃ ss, splitOnChar sep l = (l.takeWhile (fun c => !(c == sep))) :: ss := by
  induction l with
  | nil => exact ⟨[], rfl⟩
  | cons c l' ih =>
    obtain ⟨ss, hss⟩ := ih
    by_cases hc : (c == sep) = true
    · refine ⟨(l'.takeWhile (fun c => !(c == sep))) :: ss, ?_⟩
      simp [splitOnChar, hss, hc, List.takeWhile_cons]
    · have hc' : (c == sep) = false := by simpa using hc
      exact ⟨ss, by simp [splitOnChar, hss, hc', List.takeWhile_cons]⟩

lemma splitOnChar_append_clean (sep : Char) (p : Str)
    (hp : ∀ c ∈ p, (c == sep) = false) :
    ∀ (l : Str) (s0 : Str) (ss : List Str), splitOnChar sep l = s0 :: ss →
      splitOnChar sep (p ++ l) = (p ++ s0) :: ss := by
  induction p with
  | nil => intro l s0 ss h; simpa using h
  | cons c p' ih =>
    intro l s0 ss h
    have hc : (c == sep) = false := hp c (List.mem_cons_self _ _)
    have ih' := ih (fun d hd => hp d (List.mem_cons_of_mem _ hd)) l s0 ss h
    simp [splitOnChar, ih', hc]

lemma keepLoop_extends (ss : List Str) :
    ∀ inQ : Bool, ∃ r, ∀ k, k ≠ [] → keepLoop ss inQ k = k ++ r := by
  induction ss with
  | nil => intro inQ; exact ⟨[], fun k _ => by simp [keepLoop]⟩
  | cons part ss' ih =>
    intro inQ
    by_cases hc : (countChar '"' part == 1 || countChar '\'' part == 1) = true
    · cases inQ with
      | true =>
        obtain ⟨r', hr'⟩ := ih false
        refine ⟨part :: r', fun k hk => ?_⟩
        have h1 : keepLoop (part :: ss') true k = keepLoop ss' false (k ++ [part]) := by
          simp [keepLoop, hc]
        rw [h1, hr' (k ++ [part]) (by simp)]
        simp
      | false =>
        obtain ⟨r', hr'⟩ := ih true
        refine ⟨part :: r', fun k hk => ?_⟩
        have h1 : keepLoop (part :: ss') false k = keepLoop ss' true (k ++ [part]) := by
          simp [keepLoop, hc]
        rw [h1, hr' (k ++ [part]) (by simp)]
        simp
    · have hc' : (countChar '"' part == 1 || countChar '\'' part == 1) = false := by
        simpa using hc
      cases inQ with
      | true =>
        obtain ⟨r', hr'⟩ := ih true
        refine ⟨part :: r', fun k hk => ?_⟩
        have h1 : keepLoop (part :: ss') true k = keepLoop ss' true (k ++ [part]) := by
          simp [keepLoop, hc']
        rw [h1, hr' (k ++ [part]) (by simp)]
        simp
      | false =>
        obtain ⟨r', hr'⟩ := ih false
        refine ⟨r', fun k hk => ?_⟩
        have hk0 : (k.length == 0) = false := by
          simp [List.length_eq_zero, hk]
        have h1 : keepLoop (part :: ss') false k = keepLoop ss' false k := by
          simp [keepLoop, hc', hk0]
        rw [h1]
        exact hr' k hk

lemma keepLoop_head (ss : List Str) (p0 p0' : Str)
    (hq : countChar '"' p0' = countChar '"' p0)
    (hq2 : countChar '\'' p0' = countChar '\'' p0) :
    ∃ r, keepLoop (p0 :: ss) false [] = p0 :: r ∧
      keepLoop (p0' :: ss) false [] = p0' :: r := by
  by_cases hc : (countChar '"' p0 == 1 || countChar '\'' p0 == 1) = true
  · obtain ⟨r, hr⟩ := keepLoop_extends ss true
    refine ⟨r, ?_, ?_⟩
    · have h1 : keepLoop (p0 :: ss) false [] = keepLoop ss true [p0] := by
        simp [keepLoop, hc]
      rw [h1, hr [p0] (by simp)]
      simp
    · have h1 : keepLoop (p0' :: ss) false [] = keepLoop ss true [p0'] := by
        simp [keepLoop, hq, hq2, hc]
      rw [h1, hr [p0'] (by simp)]
      simp
  · have hc' : (countChar '"' p0 == 1 || countChar '\'' p0 == 1) = false := by
      simpa using hc
    obtain ⟨r, hr⟩ := keepLoop_extends ss false
    refine ⟨r, ?_, ?_⟩
    · have h1 : keepLoop (p0 :: ss) false [] = keepLoop ss false [p0] := by
        simp [keepLoop, hc']
      rw [h1, hr [p0] (by simp)]
      simp
    · have h1 : keepLoop (p0' :: ss) false [] = keepLoop ss false [p0'] := by
        simp [keepLoop, hq, hq2, hc']
      rw [h1, hr [p0'] (by simp)]
      simp

lemma joinChar_cons_append (sep : Char) (p s : Str) (r : List Str) :
    joinChar sep ((p ++ s) :: r) = p ++ joinChar sep (s :: r) := by
  cases r with
  | nil => rfl
  | cons t r' => simp [joinChar]

lemma processHashLine_clean_append (p l : Str) (hp : '#' ∉ p)
    (hq : countChar '"' p = 0) (hq2 : countChar '\'' p = 0) :
    processHashLine (p ++ l) = p ++ processHashLine l := by
  by_cases hl : '#' ∈ l
  · have h2 : l.contains '#' = true := (contains_iff l '#').mpr hl
    have h1 : (p ++ l).contains '#' = true :=
      (contains_iff _ _).mpr (List.mem_append_right p hl)
    rw [processHashLine, processHashLine, if_pos h1, if_pos h2]
    obtain ⟨ss, hss⟩ := splitOnChar_head '#' l
    have hsplit2 : splitOnChar '#' (p ++ l) =
        (p ++ l.takeWhile (fun c => !(c == '#'))) :: ss :=
      splitOnChar_append_clean '#' p
        (fun c hc => by
          have hcne : c ≠ '#' := fun he => hp (he ▸ hc)
          simpa using hcne) l _ ss hss
    rw [hss, hsplit2]
    obtain ⟨r, hk1, hk2⟩ := keepLoop_head ss (l.takeWhile (fun c => !(c == '#')))
      (p ++ l.takeWhile (fun c => !(c == '#')))
      (by rw [countChar_append, hq, Nat.zero_add])
      (by rw [countChar_append, hq2, Nat.zero_add])
    rw [hk1, hk2, joinChar_cons_append]
  · have h2 : ¬ (l.contains '#' = true) := fun hcon => hl ((contains_iff l '#').mp hcon)
    have h1 : ¬ ((p ++ l).contains '#' = true) := by
      intro hcon
      rcases List.mem_append.mp ((contains_iff _ _).mp hcon) with h | h
      · exact hp h
      · exact hl h
    rw [processHashLine, processHashLine, if_neg h1, if_neg h2]

lemma processHashLine_shape (l : Str) :
    ∃ rest, processHashLine l = l.takeWhile (fun c => !(c == '#')) ++ rest ∧
      (rest = [] ∨ ∃ r', rest = '#' :: r') := by
  by_cases hl : '#' ∈ l
  · rw [processHashLine, if_pos ((contains_iff l '#').mpr hl)]
    obtain ⟨ss, hss⟩ := splitOnChar_head '#' l
    rw [hss]
    obtain ⟨r, hk, _⟩ := keepLoop_head ss (l.takeWhile (fun c => !(c == '#')))
      (l.takeWhile (fun c => !(c == '#'))) rfl rfl
    rw [hk]
    cases r with
    | nil => exact ⟨[], by simp [joinChar], Or.inl rfl⟩
    | cons a r' =>
        exact ⟨'#' :: joinChar '#' (a :: r'), by simp [joinChar], Or.inr ⟨_, rfl⟩⟩
  · rw [processHashLine,
      if_neg (fun hcon => hl ((contains_iff l '#').mp hcon))]
    refine ⟨[], ?_, Or.inl rfl⟩
    rw [List.append_nil]
    exact (List.takeWhile_eq_self_iff.mpr
      (fun x hx => by
        have hxne : x ≠ '#' := fun he => hl (he ▸ hx)
        simpa using hxne)).symm

lemma splitN2_append_clean (sep : Char) (p : Str)
    (hp : ∀ c ∈ p, (c == sep) = false) :
    ∀ l : Str, splitN2 sep (p ++ l) = (p ++ (splitN2 sep l).1, (splitN2 sep l).2) := by
  induction p with
  | nil => intro l; simp
  | cons c p' ih =>
    intro l
    have hc := hp c (List.mem_cons_self _ _)
    simp [splitN2, hc, ih (fun d hd => hp d (List.mem_cons_of_mem _ hd)) l]

lemma splitN2_fst (sep : Char) (l : Str) :
    (splitN2 sep l).1 = l.takeWhile (fun c => !(c == sep)) := by
  induction l with
  | nil => rfl
  | cons c l' ih =>
    by_cases hc : (c == sep) = true
    · simp [splitN2, hc, List.takeWhile_cons]
    · have hc' : (c == sep) = false := by simpa using hc
      simp [splitN2, hc', List.takeWhile_cons, ih]

lemma key_not_export (K V : Str) (hK : exportChars.isPrefixOf K = false) :
    exportChars.isPrefixOf ((splitN2 '=' (processHashLine (K ++ '=' :: V))).1) = false := by
  rw [Bool.eq_false_iff]
  intro hpre'
  have hpre : exportChars <+: (splitN2 '=' (processHashLine (K ++ '=' :: V))).1 :=
    List.isPrefixOf_iff_prefix.mp hpre'
  have hKpre : ¬ exportChars <+: K := by
    intro h
    have h2 := List.isPrefixOf_iff_prefix.mpr h
    rw [hK] at h2
    exact Bool.false_ne_true h2
  rw [splitN2_fst] at hpre
  obtain ⟨rest, hshape, hrest⟩ := processHashLine_shape (K ++ '=' :: V)
  rw [hshape] at hpre
  by_cases hall : (List.takeWhile (fun c => !(c == '#')) K).length = K.length
  · -- no '#' stops inside K: the first segment runs through K and the '='
    have hT : List.takeWhile (fun c => !(c == '#')) (K ++ '=' :: V) =
        K ++ '=' :: List.takeWhile (fun c => !(c == '#')) V := by
      rw [List.takeWhile_append, if_pos hall, List.takeWhile_cons, if_pos (by decide)]
    rw [hT, List.append_assoc, List.cons_append, List.takeWhile_append] at hpre
    by_cases h2 : (List.takeWhile (fun c => !(c == '=')) K).length = K.length
    · rw [if_pos h2, List.takeWhile_cons, if_neg (by decide), List.append_nil] at hpre
      exact hKpre hpre
    · rw [if_neg h2] at hpre
      exact hKpre (hpre.trans (List.takeWhile_prefix _))
  · -- a '#' stops the first segment inside K
    have hT : List.takeWhile (fun c => !(c == '#')) (K ++ '=' :: V) =
        List.takeWhile (fun c => !(c == '#')) K := by
      rw [List.takeWhile_append, if_neg hall]
    rw [hT] at hpre
    have hTK : List.takeWhile (fun c => !(c == '#')) K <+: K := List.takeWhile_prefix _
    rw [List.takeWhile_append] at hpre
    by_cases h2 : (List.takeWhile (fun c => !(c == '='))
        (List.takeWhile (fun c => !(c == '#')) K)).length =
        (List.takeWhile (fun c => !(c == '#')) K).length
    · rw [if_pos h2] at hpre
      rcases hrest with hre | ⟨r', hre⟩
      · rw [hre] at hpre
        simp only [List.takeWhile_nil, List.append_nil] at hpre
        exact hKpre (hpre.trans hTK)
      · rw [hre, List.takeWhile_cons, if_pos (by decide)] at hpre
        -- hpre : export <+: T ++ '#' :: takeWhile ne= r'
        have h6 : exportChars =
            (List.takeWhile (fun c => !(c == '#')) K ++
              '#' :: List.takeWhile (fun c => !(c == '=')) r').take 6 := by
          have := List.prefix_iff_eq_take.mp hpre
          simpa [exportChars] using this
        by_cases hlen : 6 ≤ (List.takeWhile (fun c => !(c == '#')) K).length
        · rw [List.take_append_eq_append_take,
            Nat.sub_eq_zero_of_le hlen, List.take_zero, List.append_nil] at h6
          have hp6 : exportChars <+: List.takeWhile (fun c => !(c == '#')) K :=
            h6 ▸ List.take_prefix 6 _
          exact hKpre (hp6.trans hTK)
        · push_neg at hlen
          have hmem : '#' ∈ exportChars := by
            rw [h6, List.take_append_eq_append_take,
              List.take_of_length_le (Nat.le_of_lt hlen)]
            apply List.mem_append_right
            rcases hn : 6 - (List.takeWhile (fun c => !(c == '#')) K).length with _ | n
            · omega
            · rw [List.take_succ_cons]
              exact List.mem_cons_self _ _
          exact absurd hmem (by decide)
    · rw [if_neg h2] at hpre
      exact hKpre ((hpre.trans (List.takeWhile_prefix _)).trans hTK)

/-- C9 amended: for every key `K` that does not itself begin with the
literal prefix `export` and every value `V`, parsing the line `export K=V`
yields exactly the same result as parsing the line `K=V` (the
counterexample shows the two diverge when `K` begins with `export`, since
the bare line has that prefix stripped from its key). -/
theorem claim9_amended (K V : Str) (hK : exportChars.isPrefixOf K = false) :
    parseLine ("export ".data ++ (K ++ '=' :: V)) = parseLine (K ++ '=' :: V) := by
  have h1 : ¬ ((("export ".data ++ (K ++ '=' :: V)).length == 0) = true) := by
    simp
  have h2 : ¬ (((K ++ '=' :: V).length == 0) = true) := by
    simp
  unfold parseLine
  rw [if_neg h1, if_neg h2]
  dsimp only
  rw [processHashLine_clean_append "export ".data (K ++ '=' :: V)
    (by decide) (by decide) (by decide)]
  rw [splitN2_append_clean '=' "export ".data (by decide)
    (processHashLine (K ++ '=' :: V))]
  rcases hsp : splitN2 '=' (processHashLine (K ++ '=' :: V)) with ⟨k0, o⟩
  cases o with
  | none => rfl
  | some v0 =>
    have hk0 : exportChars.isPrefixOf k0 = false := by
      have h := key_not_export K V hK
      rw [hsp] at h
      exact h
    have hcond : exportChars.isPrefixOf ("export ".data ++ k0) = true := by
      rw [List.isPrefixOf_iff_prefix]
      refine ⟨' ' :: k0, ?_⟩
      rw [show ("export ".data : Str) = exportChars ++ [' '] from by decide,
        List.append_assoc]
      rfl
    have hde1 : dropExport ("export ".data ++ k0) = ' ' :: k0 := by
      unfold dropExport
      rw [if_pos hcond,
        show ("export ".data : Str) = exportChars ++ [' '] from by decide,
        List.append_assoc, List.drop_append_eq_append_drop]
      simp [exportChars]
    have hde2 : dropExport k0 = k0 := by
      unfold dropExport
      rw [if_neg (by simp [hk0])]
    have hts : trimSpaceGo (' ' :: k0) = trimSpaceGo k0 := by
      unfold trimSpaceGo trimLeftW
      rw [List.dropWhile_cons, if_pos (by decide)]
    show Except.ok (trimSpaceGo (dropExport ("export ".data ++ k0)), parseValue v0) =
      Except.ok (trimSpaceGo (dropExport k0), parseValue v0)
    rw [hde1, hde2, hts]

/-- C9 amended, witness: with key `HOST` (which does not start with
`export`), `export HOST=x` and `HOST=x` parse to the same entry. -/
theorem claim9_amended_witness :
    parseLine ("export ".data ++ ("HOST".data ++ '=' :: "x".data)) =
      parseLine ("HOST".data ++ '=' :: "x".data) :=
  claim9_amended "HOST".data "x".data (by decide)

end Configinator
